import Mathlib

/-!
# Verification of the ticket-api core (api/index.js)

A shallow embedding of the ticket issuance / verification / redemption service.
Each definition is translated from `api/index.js`; the HTTP handlers
`POST /api/checkout`, `POST /api/verify`, `POST /api/scan` become pure
state-passing functions over an explicit model of the `@vercel/kv` store.

Modelling conventions:
* Request-body fields hold JSON values; the top-level `name` / `email` /
  `ticketType` / `payload` / `sig` fields are modelled as `Option String`
  (absent = `none`), matching the documented client contract.
* `HMAC-SHA256` (from `node:crypto`) is a platform primitive, not repository
  code; it is modelled as an arbitrary function `hmacHex : String → String`
  over which every theorem is universally quantified.  The only properties the
  code relies on are that it is a deterministic function of the payload bytes,
  which holds for every instantiation.
* `JSON.stringify` / `JSON.parse` are modelled concretely by an executable
  serializer and a fueled recursive-descent parser over a JSON value type.
* Timestamps (`Date.now()`, `new Date().toISOString()`) and `uuidv4()` are
  nondeterministic environment inputs, passed in explicitly.
-/

namespace TicketApi

/-! ## JavaScript string primitives -/

/-- The character class `\s` of JavaScript regular expressions, also the set of
characters removed by `String.prototype.trim` (WhiteSpace ∪ LineTerminator). -/
def isJsSpace (c : Char) : Bool :=
  c == ' ' || c == '\t' || c == '\n' || c.val == 0x0b || c.val == 0x0c ||
  c == '\r' || c.val == 0xa0 || c.val == 0x1680 ||
  (0x2000 ≤ c.val && c.val ≤ 0x200a) || c.val == 0x2028 || c.val == 0x2029 ||
  c.val == 0x202f || c.val == 0x205f || c.val == 0x3000 || c.val == 0xfeff

/-- `String.prototype.trim`: strip `isJsSpace` characters from both ends. -/
def jsTrim (s : String) : String :=
  ⟨((s.data.dropWhile isJsSpace).reverse.dropWhile isJsSpace).reverse⟩

/-- `String.prototype.length` counts UTF-16 code units: astral-plane
characters (code point ≥ 0x10000) count twice. -/
def utf16Length (s : String) : Nat :=
  (s.data.map (fun c => if 0x10000 ≤ c.val then 2 else 1)).sum

/-- `String.prototype.toUpperCase`, restricted to the Basic Latin range
(`Char.toUpper` maps exactly `a`-`z`).  Theorems whose truth depends on the
uppercasing of the input restrict it to ASCII, where this model is exact. -/
def jsToUpper (s : String) : String := ⟨s.data.map Char.toUpper⟩

/-- UTF-8 encoding of one scalar value, as `Buffer.from(string)` produces. -/
def utf8Bytes (c : Char) : List Nat :=
  let n := c.toNat
  if n < 0x80 then [n]
  else if n < 0x800 then [0xc0 + n / 64, 0x80 + n % 64]
  else if n < 0x10000 then [0xe0 + n / 4096, 0x80 + n / 64 % 64, 0x80 + n % 64]
  else [0xf0 + n / 262144, 0x80 + n / 4096 % 64, 0x80 + n / 64 % 64, 0x80 + n % 64]

/-- The byte content of `Buffer.from(s)` for a string `s`. -/
def bufferOf (s : String) : List Nat :=
  s.data.foldr (fun c acc => utf8Bytes c ++ acc) []

/-! ## The email pattern

`function isEmail(s)` tests `String(s || '').trim()` against
`^[^\s@]+@[^\s@]+\.[^\s@]+$`.  Writing `A` for the class `[^\s@]`, an anchored
match decomposes uniquely at the string's first `@` (the leading `A+` cannot
contain `@`, so the literal `@` of the pattern is the first `@` of the
subject); the remainder must then consist of `A` characters only and contain a
`.` that is neither its first nor its last character (the `A+` on either side
of `\.` is nonempty, and `.` itself belongs to `A`, so by backtracking any
interior `.` witnesses a match).  The definition below implements exactly that
characterization. -/

/-- The character class `[^\s@]`. -/
def emailCharOk (c : Char) : Bool := !(isJsSpace c) && c != '@'

/-- `isEmail` from api/index.js (the argument is the request's `email` field,
with an absent field behaving as the empty string, per `String(s || '')`). -/
def isEmail (s : Option String) : Bool :=
  let t := (jsTrim (s.getD "")).data
  let front := t.takeWhile emailCharOk
  match t.drop front.length with
  | '@' :: rest =>
    !front.isEmpty && rest.all emailCharOk &&
      ((rest.drop 1).dropLast.contains '.')
  | _ => false

/-! ## JSON values, serialization and parsing -/

/-- A JSON value.  Numbers keep their source lexeme (the code never computes
with a JSON number, so no float semantics are modelled). -/
inductive Json where
  | null
  | bool (b : Bool)
  | num (lexeme : String)
  | str (s : String)
  | arr (elems : List Json)
  | obj (fields : List (String × Json))
deriving Repr

/-- The lower-case hexadecimal digit for `d < 16`. -/
def hexDig (d : Nat) : Char :=
  if d < 10 then Char.ofNat ('0'.toNat + d) else Char.ofNat ('a'.toNat + (d - 10))

/-- One character of `JSON.stringify` string output: the named escapes, the
`\u00XX` form for remaining control characters, and the character itself
otherwise. -/
def jsonEscape (c : Char) : List Char :=
  if c == '"' then ['\\', '"']
  else if c == '\\' then ['\\', '\\']
  else if c == '\n' then ['\\', 'n']
  else if c == '\r' then ['\\', 'r']
  else if c == '\t' then ['\\', 't']
  else if c.toNat == 8 then ['\\', 'b']
  else if c.toNat == 12 then ['\\', 'f']
  else if c.toNat < 0x20 then
    ['\\', 'u', '0', '0', hexDig (c.toNat / 16), hexDig (c.toNat % 16)]
  else [c]

/-- Escape a whole character list. -/
def escapeRun : List Char → List Char
  | [] => []
  | c :: cs => jsonEscape c ++ escapeRun cs

mutual

/-- `JSON.stringify` rendered to a character list (no indentation, as the
code calls it). -/
def Json.stringifyL : Json → List Char
  | .null => "null".data
  | .bool true => "true".data
  | .bool false => "false".data
  | .num lx => lx.data
  | .str s => '"' :: (escapeRun s.data ++ ['"'])
  | .arr es => '[' :: (Json.stringifyElems es ++ [']'])
  | .obj kvs => '\x7b' :: (Json.stringifyFields kvs ++ ['\x7d'])

/-- Comma-separated renderings of array elements. -/
def Json.stringifyElems : List Json → List Char
  | [] => []
  | [e] => e.stringifyL
  | e :: es => e.stringifyL ++ ',' :: Json.stringifyElems es

/-- Comma-separated renderings of object fields. -/
def Json.stringifyFields : List (String × Json) → List Char
  | [] => []
  | [(k, v)] => '"' :: (escapeRun k.data ++ '"' :: ':' :: v.stringifyL)
  | (k, v) :: kvs =>
    '"' :: (escapeRun k.data ++ '"' :: ':' :: (v.stringifyL ++ ',' :: Json.stringifyFields kvs))

end

/-- `JSON.stringify` as a string. -/
def Json.stringify (j : Json) : String := ⟨j.stringifyL⟩

/-- Numeric value of one hexadecimal digit. -/
def jsonHexVal (c : Char) : Option Nat :=
  let n := c.toNat
  if 48 ≤ n && n ≤ 57 then some (n - 48)
  else if 97 ≤ n && n ≤ 102 then some (n - 87)
  else if 65 ≤ n && n ≤ 70 then some (n - 55)
  else none

/-- Whitespace accepted between tokens by `JSON.parse`. -/
def jsonWs (c : Char) : Bool := c == ' ' || c == '\t' || c == '\n' || c == '\r'

/-- Skip inter-token whitespace. -/
def dropJsonWs : List Char → List Char
  | c :: cs => if jsonWs c then dropJsonWs cs else c :: cs
  | [] => []

/-- The character denoted by a single-letter escape, if legal. -/
def jsonUnescape (e : Char) : Option Char :=
  if e == '"' then some '"'
  else if e == '\\' then some '\\'
  else if e == '/' then some '/'
  else if e == 'b' then some (Char.ofNat 8)
  else if e == 'f' then some (Char.ofNat 12)
  else if e == 'n' then some '\n'
  else if e == 'r' then some '\r'
  else if e == 't' then some '\t'
  else none

/-- The 16-bit value of the four hexadecimal digits of a `\uXXXX` escape. -/
def jsonHexQuad (h1 h2 h3 h4 : Char) : Option Nat :=
  match jsonHexVal h1, jsonHexVal h2, jsonHexVal h3, jsonHexVal h4 with
  | some a, some b, some c, some d => some (((a * 16 + b) * 16 + c) * 16 + d)
  | _, _, _, _ => none

/-- The character of a Unicode scalar value. -/
def uniChar (n : Nat) : Option Char :=
  if h : n.isValidChar then some (Char.ofNatAux n h) else none

/-- The UTF-16 code units of one character, as a JavaScript string stores
it: one unit below `0x10000`, a surrogate pair for an astral scalar. -/
def utf16Units (c : Char) : List Nat :=
  if c.toNat < 0x10000 then [c.toNat]
  else [0xD800 + (c.toNat - 0x10000) / 0x400, 0xDC00 + (c.toNat - 0x10000) % 0x400]

/-- Body of a JSON string literal after the opening quote, decoded to the
UTF-16 code units of the JavaScript string `JSON.parse` builds: a `\uXXXX`
escape contributes its 16-bit value and every other escape or plain
character contributes the units of the character it denotes.  Returns the
units and the input after the closing quote. -/
def jsonStrBodyUnits : List Char → Option (List Nat × List Char)
  | [] => none
  | '"' :: rest => some ([], rest)
  | '\\' :: 'u' :: h1 :: h2 :: h3 :: h4 :: rest =>
    match jsonHexQuad h1 h2 h3 h4 with
    | some n => (jsonStrBodyUnits rest).map (fun (s, r) => (n :: s, r))
    | none => none
  | '\\' :: e :: rest =>
    match jsonUnescape e with
    | some ch => (jsonStrBodyUnits rest).map (fun (s, r) => (utf16Units ch ++ s, r))
    | none => none
  | '\\' :: [] => none
  | c :: rest =>
    if c.toNat < 0x20 then none
    else (jsonStrBodyUnits rest).map (fun (s, r) => (utf16Units c ++ s, r))

/-- One step of UTF-16 decoding at a unit `u` with no pending surrogate:
a non-surrogate unit yields its character and continues with `onScalar`; a
high surrogate defers to `onHigh`; a lone low surrogate fails. -/
def scalarStep (u : Nat) (onScalar onHigh : Option (List Char)) : Option (List Char) :=
  if u < 0xD800 ∨ 0xDFFF < u then
    match uniChar u, onScalar with
    | some c, some cs => some (c :: cs)
    | _, _ => none
  else if u ≤ 0xDBFF then onHigh
  else none

/-- One step of UTF-16 decoding at a unit `u` with a pending high surrogate
`hsur`: a low surrogate completes the pair into the astral scalar it encodes
and continues with `onPair`; anything else fails. -/
def pairStep (hsur u : Nat) (onPair : Option (List Char)) : Option (List Char) :=
  if 0xDC00 ≤ u ∧ u ≤ 0xDFFF then
    match uniChar (0x10000 + (hsur - 0xD800) * 0x400 + (u - 0xDC00)), onPair with
    | some c, some cs => some (c :: cs)
    | _, _ => none
  else none

/-- Read a UTF-16 code-unit sequence back as characters (fueled; `pending`
carries a high surrogate awaiting its partner), combining a
high-surrogate/low-surrogate pair into the astral scalar it encodes, as
`JSON.parse` decodes the escape pair `\uD83D\uDE00` to U+1F600.  A lone
surrogate yields `none`: such a JavaScript string is ill-formed UTF-16 with
no counterpart in the model's string type (a Lean `String` holds scalar
values only), and the code never produces such payloads. -/
def unitsToChars (fuel : Nat) (pending : Option Nat) (units : List Nat) :
    Option (List Char) :=
  match fuel with
  | 0 => none
  | fuel + 1 =>
    match pending, units with
    | none, [] => some []
    | some _, [] => none
    | none, u :: us =>
      scalarStep u (unitsToChars fuel none us) (unitsToChars fuel (some u) us)
    | some hsur, u :: us => pairStep hsur u (unitsToChars fuel none us)

/-- The UTF-16 code units of a whole character list. -/
def unitsRun : List Char → List Nat
  | [] => []
  | c :: cs => utf16Units c ++ unitsRun cs

/-- Body of a JSON string literal after the opening quote; returns the
decoded characters and the input after the closing quote. -/
def jsonStrBody (cs : List Char) : Option (List Char × List Char) :=
  match jsonStrBodyUnits cs with
  | none => none
  | some (us, r) =>
    match unitsToChars (us.length + 1) none us with
    | none => none
    | some s => some (s, r)

/-- Digit run for the number grammar. -/
def jsonDigits (cs : List Char) : List Char × List Char :=
  (cs.takeWhile Char.isDigit, cs.dropWhile Char.isDigit)

/-- JSON number lexeme: `int` then optional fraction then optional exponent,
returned verbatim. -/
def jsonNumLexeme (cs : List Char) : Option (List Char × List Char) :=
  let (sgn, cs1) := match cs with
    | '-' :: r => (['-'], r)
    | _ => (([] : List Char), cs)
  match cs1 with
  | [] => none
  | d :: _ =>
    if !d.isDigit then none
    else
      let (ip, cs2) := if d == '0' then (['0'], cs1.drop 1) else jsonDigits cs1
      let (fp, cs3) := match cs2 with
        | '.' :: r =>
          let (ds, r') := jsonDigits r
          if ds.isEmpty then ([], cs2) else ('.' :: ds, r')
        | _ => ([], cs2)
      if fp.isEmpty && (match cs2 with | '.' :: _ => true | _ => false) then none
      else
        let (ep, cs4) := match cs3 with
          | e :: r =>
            if e == 'e' || e == 'E' then
              let (sg, r1) := match r with
                | '+' :: r' => (['+'], r')
                | '-' :: r' => (['-'], r')
                | _ => (([] : List Char), r)
              let (ds, r2) := jsonDigits r1
              if ds.isEmpty then ([], cs3) else (e :: (sg ++ ds), r2)
            else ([], cs3)
          | [] => ([], cs3)
        if ep.isEmpty && (match cs3 with
            | e :: _ => e == 'e' || e == 'E'
            | [] => false) then none
        else some (sgn ++ ip ++ fp ++ ep, cs4)

mutual

/-- One JSON value (fueled recursive descent). -/
def jsonVal (fuel : Nat) (cs : List Char) : Option (Json × List Char) :=
  match fuel with
  | 0 => none
  | fuel + 1 =>
    match dropJsonWs cs with
    | [] => none
    | c :: r =>
      if c == '"' then (jsonStrBody r).map (fun (s, r') => (.str ⟨s⟩, r'))
      else if c == '\x7b' then
        match dropJsonWs r with
        | '\x7d' :: r' => some (.obj [], r')
        | other => (jsonPairs fuel other).map (fun (kvs, r') => (.obj kvs, r'))
      else if c == '[' then
        match dropJsonWs r with
        | ']' :: r' => some (.arr [], r')
        | other => (jsonItems fuel other).map (fun (es, r') => (.arr es, r'))
      else if c == 'n' then
        match r with
        | 'u' :: 'l' :: 'l' :: r' => some (.null, r')
        | _ => none
      else if c == 't' then
        match r with
        | 'r' :: 'u' :: 'e' :: r' => some (.bool true, r')
        | _ => none
      else if c == 'f' then
        match r with
        | 'a' :: 'l' :: 's' :: 'e' :: r' => some (.bool false, r')
        | _ => none
      else if c == '-' || c.isDigit then
        (jsonNumLexeme (c :: r)).map (fun (lx, r') => (.num ⟨lx⟩, r'))
      else none

/-- One-or-more comma-separated array elements, then `]`. -/
def jsonItems (fuel : Nat) (cs : List Char) : Option (List Json × List Char) :=
  match fuel with
  | 0 => none
  | fuel + 1 =>
    match jsonVal fuel cs with
    | none => none
    | some (v, r) =>
      match dropJsonWs r with
      | ']' :: r' => some ([v], r')
      | ',' :: r' => (jsonItems fuel r').map (fun (vs, r'') => (v :: vs, r''))
      | _ => none

/-- One-or-more comma-separated object fields, then the closing brace. -/
def jsonPairs (fuel : Nat) (cs : List Char) : Option (List (String × Json) × List Char) :=
  match fuel with
  | 0 => none
  | fuel + 1 =>
    match dropJsonWs cs with
    | '"' :: r =>
      match jsonStrBody r with
      | none => none
      | some (k, r1) =>
        match dropJsonWs r1 with
        | ':' :: r2 =>
          match jsonVal fuel r2 with
          | none => none
          | some (v, r3) =>
            match dropJsonWs r3 with
            | '\x7d' :: r4 => some ([(⟨k⟩, v)], r4)
            | ',' :: r4 => (jsonPairs fuel r4).map (fun (kvs, r5) => ((⟨k⟩, v) :: kvs, r5))
            | _ => none
        | _ => none
    | _ => none

end

/-- `safeJsonParse` from api/index.js: `JSON.parse` wrapped in try/catch, with
failure as `none`. -/
def safeJsonParse (s : String) : Option Json :=
  match jsonVal (s.length + 1) s.data with
  | some (v, rest) => if (dropJsonWs rest).isEmpty then some v else none
  | none => none

/-! ## JS truthiness and string coercion -/

/-- Whether a JSON number lexeme denotes zero: every digit of its mantissa is
`0` (JavaScript additionally treats values underflowing to `0.0` as falsy;
no theorem depends on a numeric field's truthiness). -/
def numLexIsZero (lx : String) : Bool :=
  (lx.data.takeWhile (fun c => c != 'e' && c != 'E')).all
    (fun c => !c.isDigit || c == '0')

/-- JavaScript truthiness of a JSON value. -/
def jsTruthy : Json → Bool
  | .null => false
  | .bool b => b
  | .num lx => !numLexIsZero lx
  | .str s => s != ""
  | .arr _ => true
  | .obj _ => true

/-- Truthiness of a possibly-absent value (`undefined` is falsy). -/
def optTruthy : Option Json → Bool
  | none => false
  | some v => jsTruthy v

mutual

/-- `String(v)` for a JSON value.  Exact for strings, booleans, `null` and
objects (the only shapes the theorems touch); a number is rendered as its
lexeme (JavaScript would first normalize the float) and an array element that
is `null` is rendered as `null` rather than the empty string. -/
def jsToString : Json → String
  | .str s => s
  | .null => "null"
  | .bool true => "true"
  | .bool false => "false"
  | .num lx => lx
  | .arr es => jsToStringItems es
  | .obj _ => "[object Object]"

/-- `Array.prototype.toString`: elements joined by commas. -/
def jsToStringItems : List Json → String
  | [] => ""
  | [e] => jsToString e
  | e :: es => jsToString e ++ "," ++ jsToStringItems es

end

/-- Property access `v.k` on a parsed JSON value: `undefined` (`none`) unless
`v` is an object with the field; `JSON.parse` keeps the last occurrence of a
duplicated key. -/
def jget : Json → String → Option Json
  | .obj kvs, k => ((kvs.reverse).find? (fun p => p.1 == k)).map (·.2)
  | _, _ => none

/-! ## Signer -/

/-- `crypto.timingSafeEqual(a, b)`: throws (`Except.error`) when the buffers
differ in length, otherwise constant-time equality (extensionally, equality). -/
def timingSafeEqual (a b : List Nat) : Except String Bool :=
  if a.length ≠ b.length then .error "ERR_CRYPTO_TIMING_SAFE_EQUAL_LENGTH"
  else .ok (a == b)

/-- `verifySig(payload, sig)`: recompute the digest over the payload bytes and
compare inside the try/catch, any throw yielding `false`. -/
def verifySig (hmacHex : String → String) (payload sig : String) : Bool :=
  let expected := hmacHex payload
  match timingSafeEqual (bufferOf expected) (bufferOf sig) with
  | .ok r => r
  | .error _ => false

/-- `sign(obj)`: the canonical payload string and its keyed digest. -/
def sign (hmacHex : String → String) (obj : Json) : String × String :=
  let payload := obj.stringify
  (payload, hmacHex payload)

/-! ## The order record and the kv store -/

/-- A stored order.  `usedAt = none` models the field being absent; `qr` is
the rendered data-URL cached on the record. -/
structure Order where
  id : String
  name : String
  email : String
  ticketType : String
  createdAt : String
  status : String
  usedAt : Option String := none
  qr : String := ""
deriving DecidableEq, Repr

/-- The parts of the `@vercel/kv` store the code touches, each an association
list: `kv.set` overwrites in place, `sadd` adds set members, `zadd` upserts a
member's score.  The `idem:KEY` entries carry a 10-minute TTL in the code;
expiry is modelled as an environment step deleting the entry. -/
structure KV where
  orders : List (String × Order) := []
  ids : List String := []
  byTime : List (String × Nat) := []
  usedByTime : List (String × Nat) := []
  idem : List (String × String) := []
deriving DecidableEq, Repr

/-- Association-list lookup (string keys). -/
def alGet {α : Type} (l : List (String × α)) (k : String) : Option α :=
  (l.find? (fun p => p.1 == k)).map (·.2)

/-- Association-list overwrite-or-append, the `kv.set` / `zadd` update. -/
def alSet {α : Type} (l : List (String × α)) (k : String) (v : α) :
    List (String × α) :=
  match l with
  | [] => [(k, v)]
  | (k', v') :: t => if k' == k then (k, v) :: t else (k', v') :: alSet t k v

/-- `sadd`: add a member to a set if absent. -/
def sAdd (l : List String) (x : String) : List String :=
  if l.contains x then l else l ++ [x]

/-- `getOrder(id)` = `kv.get('order:' + id)`. -/
def getOrder (kv : KV) (id : String) : Option Order :=
  alGet kv.orders ("order:" ++ id)

/-- `saveOrder(order)`: the record plus the id set and the creation-time index. -/
def saveOrder (kv : KV) (order : Order) (nowMs : Nat) : KV :=
  { kv with
    orders := alSet kv.orders ("order:" ++ order.id) order
    ids := sAdd kv.ids order.id
    byTime := alSet kv.byTime order.id nowMs }

/-- `ALLOWED_TICKET_TYPES` (a `Set` in the source; only membership is used). -/
def ALLOWED_TICKET_TYPES : List String := ["VIP", "PISTA", "MEIA", "CAMAROTE"]

/-- Per-request environment inputs: the fresh `uuidv4()`, the clock readings,
the process-wide digest function (the `QR_SECRET` is fixed inside it), and
the out-of-scope QR renderer `QRCode.toDataURL`. -/
structure Ctx where
  uuid : String
  nowISO : String
  nowMs : Nat
  hmacHex : String → String
  qrRender : String → String

/-! ## Checkout -/

/-- The body and `Idempotency-Key` header of a checkout request. -/
structure CheckoutReq where
  name : Option String := none
  email : Option String := none
  ticketType : Option String := none
  idemKey : Option String := none
deriving DecidableEq, Repr

/-- Checkout responses.  The three validation rejections are the handler's 400
responses with messages `Nome inválido`, `Email inválido` and
`ticketType inválido. Use: ...` respectively, each naming the offending field;
`replay` is the 200 response flagged `idempotent: true`; `created` is 201. -/
inductive CheckoutResp where
  | invalidName
  | invalidEmail
  | invalidTicketType
  | replay (id : String) (qr : String) (order : Order)
  | created (id : String) (qr : String) (order : Order)
deriving DecidableEq, Repr

/-- The HTTP status attached to each checkout response. -/
def CheckoutResp.httpCode : CheckoutResp → Nat
  | .invalidName => 400
  | .invalidEmail => 400
  | .invalidTicketType => 400
  | .replay _ _ _ => 200
  | .created _ _ _ => 201

/-- `!name || String(name).trim().length < 2`. -/
def nameInvalid (name : Option String) : Bool :=
  match name with
  | none => true
  | some s => s == "" || decide (utf16Length (jsTrim s) < 2)

/-- `String(ticketType || '').toUpperCase()`. -/
def normTicketType (tt : Option String) : String := jsToUpper (tt.getD "")

/-- `const idemKey = req.headers['idempotency-key'] || null`. -/
def idemKeyVal (req : CheckoutReq) : Option String :=
  match req.idemKey with
  | some k => if k == "" then none else some k
  | none => none

/-- The object literal `{ id, name, email, ticketType, createdAt, status }`
built by the checkout handler, as a JSON value (JavaScript objects keep
insertion order, which fixes the serialization). -/
def orderCoreJson (o : Order) : Json :=
  .obj [("id", .str o.id), ("name", .str o.name), ("email", .str o.email),
        ("ticketType", .str o.ticketType), ("createdAt", .str o.createdAt),
        ("status", .str o.status)]

/-- The exact payload string `JSON.stringify(order)` signed at issuance. -/
def orderPayload (o : Order) : String := (orderCoreJson o).stringify

/-- `qrData = { payload, sig, v: 1 }`. -/
def qrDataJson (payload sig : String) : Json :=
  .obj [("payload", .str payload), ("sig", .str sig), ("v", .num "1")]

/-- The idempotency replay lookup: an existing binding for the key whose order
id is truthy and still resolves in the store. -/
def checkoutReplay (req : CheckoutReq) (kv : KV) : Option Order :=
  match idemKeyVal req with
  | none => none
  | some k =>
    match alGet kv.idem ("idem:" ++ k) with
    | some existingId => if existingId == "" then none else getOrder kv existingId
    | none => none

/-- The `POST /api/checkout` handler.  The fire-and-forget `sendTicketEmail`
call is the out-of-scope NotificationPort: it touches no state here and its
rejection is swallowed (`.catch(() => ...)`) in the source. -/
def checkout (ctx : Ctx) (req : CheckoutReq) (kv : KV) : CheckoutResp × KV :=
  if nameInvalid req.name then (.invalidName, kv)
  else if !isEmail req.email then (.invalidEmail, kv)
  else if !(ALLOWED_TICKET_TYPES.contains (normTicketType req.ticketType)) then
    (.invalidTicketType, kv)
  else
    match checkoutReplay req kv with
    | some existingOrder =>
      (.replay existingOrder.id existingOrder.qr existingOrder, kv)
    | none =>
      let id := ctx.uuid
      let createdAt := ctx.nowISO
      let order : Order :=
        { id, name := jsTrim (req.name.getD ""),
          email := jsTrim (req.email.getD ""),
          ticketType := normTicketType req.ticketType, createdAt, status := "issued" }
      let ps := sign ctx.hmacHex (orderCoreJson order)
      let qr := ctx.qrRender ((qrDataJson ps.1 ps.2).stringify)
      let stored : Order := { order with qr }
      let kv1 := saveOrder kv stored ctx.nowMs
      let kv2 :=
        match idemKeyVal req with
        | some k => { kv1 with idem := alSet kv1.idem ("idem:" ++ k) id }
        | none => kv1
      (.created id qr stored, kv2)

/-- The order record built and persisted by the created branch of the
checkout handler (the response's `order`, including the cached rendering). -/
def checkoutStored (ctx : Ctx) (req : CheckoutReq) : Order :=
  let order : Order :=
    { id := ctx.uuid, name := jsTrim (req.name.getD ""),
      email := jsTrim (req.email.getD ""),
      ticketType := normTicketType req.ticketType, createdAt := ctx.nowISO,
      status := "issued" }
  { order with
    qr := ctx.qrRender ((qrDataJson (sign ctx.hmacHex (orderCoreJson order)).1
      (sign ctx.hmacHex (orderCoreJson order)).2).stringify) }

/-! ## Verify and scan -/

/-- The raw `qrData` body field: a string still to be parsed, or an
already-decoded JSON value. -/
inductive QrRaw where
  | rawStr (s : String)
  | rawVal (j : Json)
deriving Repr

/-- A verify/scan request body. -/
structure VScanReq where
  payload : Option String := none
  sig : Option String := none
  qrData : Option QrRaw := none
deriving Repr

/-- The input normalization shared verbatim by the verify and scan handlers:
keep top-level `payload`/`sig` when both are truthy, otherwise try `qrData`
(parsed first when a string), and reject (`none`, the 400
`payload/sig ausentes` response) when neither form yields both. -/
def normalizeQr (req : VScanReq) : Option (Json × Json) :=
  let p0 : Option Json := req.payload.map .str
  let s0 : Option Json := req.sig.map .str
  let step :=
    if !optTruthy p0 || !optTruthy s0 then
      let objV : Option Json :=
        match req.qrData with
        | some (.rawStr raw) => safeJsonParse raw
        | some (.rawVal j) => some j
        | none => none
      match objV with
      | some o =>
        if jsTruthy o && optTruthy (jget o "payload") && optTruthy (jget o "sig")
        then (jget o "payload", jget o "sig")
        else (p0, s0)
      | none => (p0, s0)
    else (p0, s0)
  if !optTruthy step.1 || !optTruthy step.2 then none
  else
    match step.1, step.2 with
    | some p, some s => some (p, s)
    | _, _ => none

/-- Verify responses: 400 `payload/sig ausentes`, 401 `invalid-signature`,
400 `payload inválido`, 404 `order-not-found`, or the 200 success carrying
the deserialized payload (`order`), the stored status and `usedAt || null`. -/
inductive VerifyResp where
  | missingFields
  | invalidSignature
  | invalidPayload
  | notFound
  | ok (order : Json) (status : String) (usedAt : Option String)
deriving Repr

/-- The HTTP status attached to each verify response. -/
def VerifyResp.httpCode : VerifyResp → Nat
  | .missingFields => 400
  | .invalidSignature => 401
  | .invalidPayload => 400
  | .notFound => 404
  | .ok _ _ _ => 200

/-- `fromDb.usedAt || null`. -/
def usedAtOrNull (u : Option String) : Option String :=
  match u with
  | some s => if s == "" then none else some s
  | none => none

/-- The `POST /api/verify` handler. -/
def verify (hmacHex : String → String) (req : VScanReq) (kv : KV) :
    VerifyResp × KV :=
  match normalizeQr req with
  | none => (.missingFields, kv)
  | some (pj, sj) =>
    if !verifySig hmacHex (jsToString pj) (jsToString sj) then
      (.invalidSignature, kv)
    else
      match safeJsonParse (jsToString pj) with
      | none => (.invalidPayload, kv)
      | some data =>
        if !optTruthy (jget data "id") then (.invalidPayload, kv)
        else
          match getOrder kv (jsToString ((jget data "id").getD .null)) with
          | none => (.notFound, kv)
          | some fromDb =>
            (.ok data fromDb.status (usedAtOrNull fromDb.usedAt), kv)

/-- Scan responses: the verify-style errors plus the 409 `already-used`
response (carrying the stored `usedAt`; the JSON body drops the field when it
is absent) and the 200 success with the updated order. -/
inductive ScanResp where
  | missingFields
  | invalidSignature
  | invalidPayload
  | notFound
  | alreadyUsed (usedAt : Option String)
  | ok (order : Order)
deriving DecidableEq, Repr

/-- The HTTP status attached to each scan response. -/
def ScanResp.httpCode : ScanResp → Nat
  | .missingFields => 400
  | .invalidSignature => 401
  | .invalidPayload => 400
  | .notFound => 404
  | .alreadyUsed _ => 409
  | .ok _ => 200

/-- The `error` field of each non-200 scan response body. -/
def ScanResp.errorField : ScanResp → Option String
  | .missingFields => some "payload/sig ausentes"
  | .invalidSignature => some "invalid-signature"
  | .invalidPayload => some "payload inválido"
  | .notFound => some "order-not-found"
  | .alreadyUsed _ => some "already-used"
  | .ok _ => none

/-- The scan handler from the `getOrder` read onward: read the record, answer
409 if it is already used, otherwise write the mutated record back and index
it — a read-modify-write sequence of separate kv calls, not an atomic
compare-and-set. -/
def scanCore (id : String) (nowISO : String) (nowMs : Nat) (kv : KV) :
    ScanResp × KV :=
  match getOrder kv id with
  | none => (.notFound, kv)
  | some order =>
    if order.status == "used" then (.alreadyUsed order.usedAt, kv)
    else
      let updated : Order := { order with status := "used", usedAt := some nowISO }
      let kv1 := { kv with orders := alSet kv.orders ("order:" ++ order.id) updated }
      let kv2 := { kv1 with usedByTime := alSet kv1.usedByTime order.id nowMs }
      (.ok updated, kv2)

/-- The `POST /api/scan` handler. -/
def scan (hmacHex : String → String) (nowISO : String) (nowMs : Nat)
    (req : VScanReq) (kv : KV) : ScanResp × KV :=
  match normalizeQr req with
  | none => (.missingFields, kv)
  | some (pj, sj) =>
    if !verifySig hmacHex (jsToString pj) (jsToString sj) then
      (.invalidSignature, kv)
    else
      match safeJsonParse (jsToString pj) with
      | none => (.invalidPayload, kv)
      | some data =>
        if !optTruthy (jget data "id") then (.invalidPayload, kv)
        else scanCore (jsToString ((jget data "id").getD .null)) nowISO nowMs kv

/-- The `GET /api/ticket/:id` lookup (read-only). -/
def ticketLookup (kv : KV) (id : String) : Option Order := getOrder kv id

/-! ## Concurrency model for redemption

`scanCore` is a sequence of separate kv calls: a read (`getOrder`) followed,
after the status check, by an unconditional write (`kv.set`).  To examine the
handler under concurrent requests, one redemption attempt is split at the
kv-call boundary into atomic steps, and a scheduler interleaves two attempts
on the same ticket. -/

/-- The program counter of one in-flight redemption attempt: before the read,
between the read and the write, or finished with a response. -/
inductive RedeemPC where
  | start
  | gotOrder (o : Option Order)
  | done (resp : ScanResp)
deriving DecidableEq, Repr

/-- One atomic step of a redemption attempt on ticket `id`: first the
`getOrder` read, then the check-and-write remainder of `scanCore`. -/
def redeemStep (id : String) (nowISO : String) (nowMs : Nat) :
    RedeemPC → KV → RedeemPC × KV
  | .start, kv => (.gotOrder (getOrder kv id), kv)
  | .gotOrder none, kv => (.done .notFound, kv)
  | .gotOrder (some order), kv =>
    if order.status == "used" then (.done (.alreadyUsed order.usedAt), kv)
    else
      let updated : Order := { order with status := "used", usedAt := some nowISO }
      let kv1 := { kv with orders := alSet kv.orders ("order:" ++ order.id) updated }
      let kv2 := { kv1 with usedByTime := alSet kv1.usedByTime order.id nowMs }
      (.done (.ok updated), kv2)
  | .done r, kv => (.done r, kv)

/-- Run two interleaved redemption attempts for the same ticket under a
schedule: `true` steps the first attempt, `false` the second. -/
def runRace (id : String) (iso1 iso2 : String) (ms1 ms2 : Nat) :
    List Bool → RedeemPC × RedeemPC × KV → RedeemPC × RedeemPC × KV
  | [], st => st
  | b :: sched, (a, c, kv) =>
    if b then
      let s := redeemStep id iso1 ms1 a kv
      runRace id iso1 iso2 ms1 ms2 sched (s.1, c, s.2)
    else
      let s := redeemStep id iso2 ms2 c kv
      runRace id iso1 iso2 ms1 ms2 sched (a, s.1, s.2)

/-! ## Reachable store states -/

/-- Store states reachable from the empty store through the public
operations, with the environment free to expire idempotency bindings (their
10-minute TTL).  The read-only operations (`ticketLookup`, the admin reads)
do not alter the store and need no step. -/
inductive Reachable : KV → Prop where
  | init : Reachable {}
  | checkoutStep (ctx : Ctx) (req : CheckoutReq) {kv : KV} :
      Reachable kv → Reachable (checkout ctx req kv).2
  | verifyStep (hmacHex : String → String) (req : VScanReq) {kv : KV} :
      Reachable kv → Reachable (verify hmacHex req kv).2
  | scanStep (hmacHex : String → String) (nowISO : String) (nowMs : Nat)
      (req : VScanReq) {kv : KV} :
      Reachable kv → Reachable (scan hmacHex nowISO nowMs req kv).2
  | idemExpire (k : String) {kv : KV} :
      Reachable kv → Reachable { kv with idem := kv.idem.filter (fun p => p.1 != k) }

/-- The `usedAt`-presence invariant of the data model: `usedAt` is present on
a stored order exactly when its status is `used`. -/
def UsedAtIffUsed (kv : KV) : Prop :=
  ∀ p ∈ kv.orders, p.2.usedAt.isSome = true ↔ p.2.status = "used"

/-- The enumeration invariant of the data model: every persisted
`ticketType` belongs to `ALLOWED_TICKET_TYPES`. -/
def TicketTypesAllowed (kv : KV) : Prop :=
  ∀ p ∈ kv.orders, p.2.ticketType ∈ ALLOWED_TICKET_TYPES

/-! # Lemmas -/

/-! ## Association-list lemmas -/

theorem alGet_alSet_self {α : Type} (l : List (String × α)) (k : String) (v : α) :
    alGet (alSet l k v) k = some v := by
  induction l with
  | nil => simp [alSet, alGet, List.find?]
  | cons p t ih =>
    obtain ⟨k0, v0⟩ := p
    cases hb : k0 == k with
    | true => simp [alSet, hb, alGet, List.find?]
    | false =>
      simp only [alSet, hb, Bool.false_eq_true, if_false]
      simp only [alGet, List.find?, hb] at ih ⊢
      exact ih

theorem alGet_alSet_ne {α : Type} (l : List (String × α)) (k k' : String) (v : α)
    (h : k' ≠ k) : alGet (alSet l k v) k' = alGet l k' := by
  have hkk : (k == k') = false := beq_eq_false_iff_ne.mpr (fun hh => h hh.symm)
  induction l with
  | nil => simp [alSet, alGet, List.find?, hkk]
  | cons p t ih =>
    obtain ⟨k0, v0⟩ := p
    cases hb : k0 == k with
    | true =>
      have hk0 : k0 = k := by simpa using hb
      subst hk0
      simp [alSet, alGet, List.find?, hkk]
    | false =>
      simp only [alSet, hb, Bool.false_eq_true, if_false]
      cases hb' : k0 == k' with
      | true => simp [alGet, List.find?, hb']
      | false =>
        simp only [alGet, List.find?, hb'] at ih ⊢
        exact ih

theorem mem_alSet {α : Type} {l : List (String × α)} {k : String} {v : α}
    {q : String × α} (h : q ∈ alSet l k v) : q = (k, v) ∨ q ∈ l := by
  induction l with
  | nil => simpa [alSet] using h
  | cons p t ih =>
    obtain ⟨k0, v0⟩ := p
    cases hb : k0 == k with
    | true =>
      rw [alSet, if_pos hb] at h
      rcases List.mem_cons.mp h with h1 | h1
      · exact Or.inl h1
      · exact Or.inr (List.mem_cons_of_mem _ h1)
    | false =>
      rw [alSet, if_neg (by simp [hb])] at h
      rcases List.mem_cons.mp h with h1 | h1
      · exact Or.inr (h1 ▸ List.mem_cons_self _ _)
      · rcases ih h1 with h2 | h2
        · exact Or.inl h2
        · exact Or.inr (List.mem_cons_of_mem _ h2)

/-! ## Character and hexadecimal lemmas -/

theorem char_eq_of_toNat_eq {a b : Char} (h : a.toNat = b.toNat) : a = b := by
  apply Char.ext
  apply UInt32.eq_of_toBitVec_eq
  exact BitVec.eq_of_toNat_eq h

theorem jsonHexVal_hexDig (d : Nat) (h : d < 16) : jsonHexVal (hexDig d) = some d := by
  interval_cases d <;> decide

theorem Char.ofNatAux_toNat (c : Char) (h : c.toNat.isValidChar) :
    Char.ofNatAux c.toNat h = c := by
  apply Char.ext
  simp only [Char.ofNatAux]
  apply UInt32.eq_of_toBitVec_eq
  apply BitVec.eq_of_toNat_eq
  simp only [BitVec.ofNatLt]
  rfl

theorem jsonHexQuad_control (c : Char) (hlt : c.toNat < 0x20) :
    jsonHexQuad '0' '0' (hexDig (c.toNat / 16)) (hexDig (c.toNat % 16)) = some c.toNat := by
  have e1 := jsonHexVal_hexDig (c.toNat / 16) (by omega)
  have e2 := jsonHexVal_hexDig (c.toNat % 16) (by omega)
  have d0 : jsonHexVal '0' = some 0 := by decide
  unfold jsonHexQuad
  rw [d0, e1, e2]
  show some (((0 * 16 + 0) * 16 + c.toNat / 16) * 16 + c.toNat % 16) = some c.toNat
  rw [show ((0 * 16 + 0) * 16 + c.toNat / 16) * 16 + c.toNat % 16 = c.toNat from by omega]

theorem char_valid_or (c : Char) :
    c.toNat < 0xD800 ∨ (0xDFFF < c.toNat ∧ c.toNat < 0x110000) := c.valid

theorem uniChar_char (c : Char) : uniChar c.toNat = some c := by
  have hv : (c.toNat).isValidChar := c.valid
  unfold uniChar
  rw [dif_pos hv, Char.ofNatAux_toNat c hv]

/-! ## String-literal round trip -/

theorem unitsToChars_step_none (f u : Nat) (us : List Nat) :
    unitsToChars (f + 1) none (u :: us)
      = scalarStep u (unitsToChars f none us) (unitsToChars f (some u) us) := rfl

theorem unitsToChars_step_some (f hsur u : Nat) (us : List Nat) :
    unitsToChars (f + 1) (some hsur) (u :: us)
      = pairStep hsur u (unitsToChars f none us) := rfl

theorem unitsToChars_scalar (f : Nat) (c : Char) (us : List Nat) :
    unitsToChars (f + 1) none (c.toNat :: us)
      = (unitsToChars f none us).map (fun cs => c :: cs) := by
  have hs : c.toNat < 0xD800 ∨ 0xDFFF < c.toNat := by
    rcases char_valid_or c with h1 | ⟨h1, _⟩
    · exact Or.inl h1
    · exact Or.inr h1
  rw [unitsToChars_step_none f c.toNat us]
  unfold scalarStep
  rw [if_pos hs, uniChar_char c]
  cases hu : unitsToChars f none us <;> rfl

theorem unitsToChars_pair (f hi lo : Nat) (us : List Nat) (c : Char)
    (h1 : 0xD800 ≤ hi) (h2 : hi ≤ 0xDBFF) (h3 : 0xDC00 ≤ lo) (h4 : lo ≤ 0xDFFF)
    (hc : uniChar (0x10000 + (hi - 0xD800) * 0x400 + (lo - 0xDC00)) = some c) :
    unitsToChars (f + 2) none (hi :: lo :: us)
      = (unitsToChars f none us).map (fun cs => c :: cs) := by
  show unitsToChars (f + 1 + 1) none (hi :: lo :: us)
      = (unitsToChars f none us).map (fun cs => c :: cs)
  rw [unitsToChars_step_none (f + 1) hi (lo :: us)]
  unfold scalarStep
  rw [if_neg (by omega), if_pos h2]
  rw [unitsToChars_step_some f hi lo us]
  unfold pairStep
  rw [if_pos ⟨h3, h4⟩, hc]
  cases hu : unitsToChars f none us <;> rfl

theorem unitsToChars_units (c : Char) (us : List Nat) (f : Nat) :
    unitsToChars (f + (utf16Units c).length) none (utf16Units c ++ us)
      = (unitsToChars f none us).map (fun cs => c :: cs) := by
  have hb : c.toNat < 0x110000 := by
    rcases char_valid_or c with h1 | ⟨_, h2⟩
    · omega
    · exact h2
  by_cases h : c.toNat < 0x10000
  · rw [show utf16Units c = [c.toNat] from by unfold utf16Units; rw [if_pos h]]
    exact unitsToChars_scalar f c us
  · rw [show utf16Units c
          = [0xD800 + (c.toNat - 0x10000) / 0x400, 0xDC00 + (c.toNat - 0x10000) % 0x400]
        from by unfold utf16Units; rw [if_neg h]]
    exact unitsToChars_pair f _ _ us c (by omega) (by omega) (by omega) (by omega)
      (by rw [show 0x10000 + ((0xD800 + (c.toNat - 0x10000) / 0x400) - 0xD800) * 0x400
            + ((0xDC00 + (c.toNat - 0x10000) % 0x400) - 0xDC00) = c.toNat from by omega]
          exact uniChar_char c)

theorem jsonStrBodyUnits_plain (c : Char) (Y : List Char)
    (h1 : c ≠ '"') (h2 : c ≠ '\\') (h3 : ¬ c.toNat < 0x20) :
    jsonStrBodyUnits (c :: Y)
      = (jsonStrBodyUnits Y).map (fun p => (utf16Units c ++ p.1, p.2)) := by
  rw [jsonStrBodyUnits.eq_def]
  split
  · rename_i heq
    exact absurd heq (by simp)
  · rename_i heq
    injection heq with hc hY
    exact absurd hc h1
  · rename_i heq
    injection heq with hc hY
    exact absurd hc h2
  · rename_i heq
    injection heq with hc hY
    exact absurd hc h2
  · rename_i heq
    injection heq with hc hY
    exact absurd hc h2
  · rename_i heq
    injection heq with hc hY
    subst hc
    subst hY
    rw [if_neg h3]

theorem jsonStrBody_plain (c : Char) (Y : List Char)
    (h1 : c ≠ '"') (h2 : c ≠ '\\') (h3 : ¬ c.toNat < 0x20) :
    jsonStrBody (c :: Y) = (jsonStrBody Y).map (fun p => (c :: p.1, p.2)) := by
  unfold jsonStrBody
  rw [jsonStrBodyUnits_plain c Y h1 h2 h3]
  cases hu : jsonStrBodyUnits Y with
  | none => rfl
  | some p =>
    show (match unitsToChars ((utf16Units c ++ p.1).length + 1) none
            (utf16Units c ++ p.1) with
          | none => none
          | some s => some (s, p.2))
        = (match unitsToChars (p.1.length + 1) none p.1 with
          | none => none
          | some s => some (s, p.2)).map
            (fun (q : List Char × List Char) => (c :: q.1, q.2))
    rw [show (utf16Units c ++ p.1).length + 1
        = (p.1.length + 1) + (utf16Units c).length from by
      rw [List.length_append]; omega]
    rw [unitsToChars_units c p.1 (p.1.length + 1)]
    cases hc2 : unitsToChars (p.1.length + 1) none p.1 <;> rfl

theorem jsonStrBodyUnits_escape : ∀ (s rest : List Char),
    jsonStrBodyUnits (escapeRun s ++ '"' :: rest) = some (unitsRun s, rest)
  | [], rest => rfl
  | c :: cs, rest => by
    have ih := jsonStrBodyUnits_escape cs rest
    show jsonStrBodyUnits ((jsonEscape c ++ escapeRun cs) ++ '"' :: rest)
        = some (utf16Units c ++ unitsRun cs, rest)
    rw [List.append_assoc]
    by_cases h1 : c == '"'
    · obtain rfl : c = '"' := by simpa using h1
      show (jsonStrBodyUnits (escapeRun cs ++ '"' :: rest)).map
          (fun p => (utf16Units '"' ++ p.1, p.2))
          = some (utf16Units '"' ++ unitsRun cs, rest)
      rw [ih]; rfl
    · by_cases h2 : c == '\\'
      · obtain rfl : c = '\\' := by simpa using h2
        show (jsonStrBodyUnits (escapeRun cs ++ '"' :: rest)).map
            (fun p => (utf16Units '\\' ++ p.1, p.2))
            = some (utf16Units '\\' ++ unitsRun cs, rest)
        rw [ih]; rfl
      · by_cases h3 : c == '\n'
        · obtain rfl : c = '\n' := by simpa using h3
          show (jsonStrBodyUnits (escapeRun cs ++ '"' :: rest)).map
              (fun p => (utf16Units '\n' ++ p.1, p.2))
              = some (utf16Units '\n' ++ unitsRun cs, rest)
          rw [ih]; rfl
        · by_cases h4 : c == '\r'
          · obtain rfl : c = '\r' := by simpa using h4
            show (jsonStrBodyUnits (escapeRun cs ++ '"' :: rest)).map
                (fun p => (utf16Units '\r' ++ p.1, p.2))
                = some (utf16Units '\r' ++ unitsRun cs, rest)
            rw [ih]; rfl
          · by_cases h5 : c == '\t'
            · obtain rfl : c = '\t' := by simpa using h5
              show (jsonStrBodyUnits (escapeRun cs ++ '"' :: rest)).map
                  (fun p => (utf16Units '\t' ++ p.1, p.2))
                  = some (utf16Units '\t' ++ unitsRun cs, rest)
              rw [ih]; rfl
            · by_cases h6 : c.toNat == 8
              · obtain rfl : c = Char.ofNat 8 := char_eq_of_toNat_eq (by simpa using h6)
                show (jsonStrBodyUnits (escapeRun cs ++ '"' :: rest)).map
                    (fun p => (utf16Units (Char.ofNat 8) ++ p.1, p.2))
                    = some (utf16Units (Char.ofNat 8) ++ unitsRun cs, rest)
                rw [ih]; rfl
              · by_cases h7 : c.toNat == 12
                · obtain rfl : c = Char.ofNat 12 := char_eq_of_toNat_eq (by simpa using h7)
                  show (jsonStrBodyUnits (escapeRun cs ++ '"' :: rest)).map
                      (fun p => (utf16Units (Char.ofNat 12) ++ p.1, p.2))
                      = some (utf16Units (Char.ofNat 12) ++ unitsRun cs, rest)
                  rw [ih]; rfl
                · by_cases h8 : c.toNat < 0x20
                  · rw [show jsonEscape c
                          = ['\\', 'u', '0', '0', hexDig (c.toNat / 16),
                             hexDig (c.toNat % 16)]
                        from by simp [jsonEscape, h1, h2, h3, h4, h5, h6, h7, h8]]
                    show (match jsonHexQuad '0' '0' (hexDig (c.toNat / 16))
                            (hexDig (c.toNat % 16)) with
                          | some n =>
                            (jsonStrBodyUnits (escapeRun cs ++ '"' :: rest)).map
                              (fun p => (n :: p.1, p.2))
                          | none => none)
                        = some (utf16Units c ++ unitsRun cs, rest)
                    rw [jsonHexQuad_control c h8, ih,
                      show utf16Units c = [c.toNat] from by
                        unfold utf16Units; rw [if_pos (by omega)]]
                    rfl
                  · rw [show jsonEscape c = [c]
                        from by simp [jsonEscape, h1, h2, h3, h4, h5, h6, h7, h8]]
                    have hb1 : c ≠ '"' := by simpa using h1
                    have hb2 : c ≠ '\\' := by simpa using h2
                    show jsonStrBodyUnits (c :: (escapeRun cs ++ '"' :: rest))
                        = some (utf16Units c ++ unitsRun cs, rest)
                    rw [jsonStrBodyUnits_plain c _ hb1 hb2 h8, ih]
                    rfl

theorem unitsToChars_unitsRun : ∀ (s : List Char),
    unitsToChars ((unitsRun s).length + 1) none (unitsRun s) = some s
  | [] => rfl
  | c :: cs => by
    have ih := unitsToChars_unitsRun cs
    rw [show (unitsRun (c :: cs)).length + 1
        = ((unitsRun cs).length + 1) + (utf16Units c).length from by
      show (utf16Units c ++ unitsRun cs).length + 1 = _
      rw [List.length_append]; omega]
    show unitsToChars (((unitsRun cs).length + 1) + (utf16Units c).length) none
        (utf16Units c ++ unitsRun cs) = some (c :: cs)
    rw [unitsToChars_units c (unitsRun cs) ((unitsRun cs).length + 1), ih]
    rfl

theorem jsonStrBody_escape (s rest : List Char) :
    jsonStrBody (escapeRun s ++ '"' :: rest) = some (s, rest) := by
  unfold jsonStrBody
  rw [jsonStrBodyUnits_escape s rest]
  show (match unitsToChars ((unitsRun s).length + 1) none (unitsRun s) with
        | none => none
        | some t => some (t, rest))
      = some (s, rest)
  rw [unitsToChars_unitsRun s]

/-! ## Object round trip -/

theorem jsonVal_str (f : Nat) (v : String) (tail : List Char) :
    jsonVal (f + 1) ('"' :: (escapeRun v.data ++ '"' :: tail)) = some (.str v, tail) := by
  show (jsonStrBody (escapeRun v.data ++ '"' :: tail)).map
      (fun p => (Json.str ⟨p.1⟩, p.2)) = some (.str v, tail)
  rw [jsonStrBody_escape]
  rfl

theorem jsonVal_obj_quote (f : Nat) (X : List Char) :
    jsonVal (f + 1) ('\x7b' :: '"' :: X)
      = (jsonPairs f ('"' :: X)).map (fun p => (Json.obj p.1, p.2)) := rfl

theorem jsonPairs_step (f : Nat) (k : String) (X : List Char) :
    jsonPairs (f + 1) ('"' :: (escapeRun k.data ++ '"' :: (':' :: X)))
      = (match jsonVal f X with
         | none => none
         | some (v, r3) =>
           match dropJsonWs r3 with
           | '\x7d' :: r4 => some ([(k, v)], r4)
           | ',' :: r4 => (jsonPairs f r4).map (fun p => ((k, v) :: p.1, p.2))
           | _ => none) := by
  show (match jsonStrBody (escapeRun k.data ++ '"' :: (':' :: X)) with
        | none => none
        | some (kk, r1) =>
          match dropJsonWs r1 with
          | ':' :: r2 =>
            (match jsonVal f r2 with
             | none => none
             | some (v, r3) =>
               match dropJsonWs r3 with
               | '\x7d' :: r4 => some ([((⟨kk⟩ : String), v)], r4)
               | ',' :: r4 =>
                 (jsonPairs f r4).map
                   (fun (p : List (String × Json) × List Char) =>
                     (((⟨kk⟩ : String), v) :: p.1, p.2))
               | _ => none)
          | _ => none)
      = (match jsonVal f X with
         | none => none
         | some (v, r3) =>
           match dropJsonWs r3 with
           | '\x7d' :: r4 => some ([(k, v)], r4)
           | ',' :: r4 => (jsonPairs f r4).map (fun p => ((k, v) :: p.1, p.2))
           | _ => none)
  rw [jsonStrBody_escape]
  rfl

theorem length_le_stringifyFields :
    ∀ (kvs : List (String × Json)), kvs.length ≤ (Json.stringifyFields kvs).length
  | [] => by simp [Json.stringifyFields]
  | [(k, v)] => by simp [Json.stringifyFields]
  | (k, v) :: p :: kvs => by
    have ih := length_le_stringifyFields (p :: kvs)
    simp only [Json.stringifyFields, List.length_cons, List.length_append] at ih ⊢
    omega

theorem jsonPairs_strFields :
    ∀ (kvs : List (String × String)) (k v : String) (rest : List Char) (fuel : Nat),
      kvs.length < fuel →
      jsonPairs (fuel + 1)
        (Json.stringifyFields ((k, Json.str v) :: kvs.map (fun p => (p.1, Json.str p.2)))
          ++ '\x7d' :: rest)
        = some ((k, Json.str v) :: kvs.map (fun p => (p.1, Json.str p.2)), rest)
  | [], k, v, rest, fuel, h => by
    obtain ⟨f, rfl⟩ : ∃ f, fuel = f + 1 := ⟨fuel - 1, by omega⟩
    rw [show Json.stringifyFields ((k, Json.str v) ::
            ([] : List (String × String)).map (fun p => (p.1, Json.str p.2)))
            ++ '\x7d' :: rest
          = '"' :: (escapeRun k.data ++ '"' ::
              (':' :: ('"' :: (escapeRun v.data ++ '"' :: '\x7d' :: rest))))
        from by simp [Json.stringifyFields, Json.stringifyL]]
    rw [jsonPairs_step, jsonVal_str f v ('\x7d' :: rest)]
    rfl
  | (k2, v2) :: more, k, v, rest, fuel, h => by
    obtain ⟨f, rfl⟩ : ∃ f, fuel = f + 1 := ⟨fuel - 1, by omega⟩
    have hlen : more.length < f := by
      simp only [List.length_cons] at h
      omega
    have ih := jsonPairs_strFields more k2 v2 rest f hlen
    rw [show Json.stringifyFields ((k, Json.str v) ::
            ((k2, v2) :: more).map (fun p => (p.1, Json.str p.2))) ++ '\x7d' :: rest
          = '"' :: (escapeRun k.data ++ '"' ::
              (':' :: ('"' :: (escapeRun v.data ++ '"' :: ',' ::
                (Json.stringifyFields ((k2, Json.str v2) ::
                  more.map (fun p => (p.1, Json.str p.2))) ++ '\x7d' :: rest)))))
        from by simp [Json.stringifyFields, Json.stringifyL]]
    rw [jsonPairs_step, jsonVal_str f v (',' ::
      (Json.stringifyFields ((k2, Json.str v2) :: more.map (fun p => (p.1, Json.str p.2)))
        ++ '\x7d' :: rest))]
    show (jsonPairs (f + 1)
        (Json.stringifyFields ((k2, Json.str v2) :: more.map (fun p => (p.1, Json.str p.2)))
          ++ '\x7d' :: rest)).map
        (fun p => ((k, Json.str v) :: p.1, p.2))
      = some ((k, Json.str v) :: ((k2, v2) :: more).map (fun p => (p.1, Json.str p.2)), rest)
    rw [ih]
    rfl

theorem jsonVal_objFields (f : Nat) (k : String) (j : Json)
    (kvs : List (String × Json)) (rest : List Char) :
    jsonVal (f + 1) ('\x7b' :: (Json.stringifyFields ((k, j) :: kvs) ++ '\x7d' :: rest))
      = (jsonPairs f (Json.stringifyFields ((k, j) :: kvs) ++ '\x7d' :: rest)).map
          (fun p => (Json.obj p.1, p.2)) := by
  cases kvs with
  | nil => rfl
  | cons q more => rfl

theorem safeJsonParse_strObj (k v : String) (kvs : List (String × String)) :
    safeJsonParse
        (Json.stringify (.obj ((k, Json.str v) :: kvs.map (fun p => (p.1, Json.str p.2)))))
      = some (.obj ((k, Json.str v) :: kvs.map (fun p => (p.1, Json.str p.2)))) := by
  have hb := length_le_stringifyFields
    ((k, Json.str v) :: kvs.map (fun p => (p.1, Json.str p.2)))
  have hbound : kvs.length <
      (Json.stringifyFields ((k, Json.str v) ::
        kvs.map (fun p => (p.1, Json.str p.2)))).length + 1 := by
    simp only [List.length_map, List.length_cons] at hb
    omega
  have hlen : (Json.stringify
      (.obj ((k, Json.str v) :: kvs.map (fun p => (p.1, Json.str p.2))))).length
      = (Json.stringifyFields ((k, Json.str v) ::
          kvs.map (fun p => (p.1, Json.str p.2)))).length + 2 := by
    show ('\x7b' :: (Json.stringifyFields ((k, Json.str v) ::
        kvs.map (fun p => (p.1, Json.str p.2))) ++ ['\x7d'])).length = _
    simp
  simp only [safeJsonParse]
  rw [hlen]
  rw [show (Json.stringify
        (.obj ((k, Json.str v) :: kvs.map (fun p => (p.1, Json.str p.2))))).data
      = '\x7b' :: (Json.stringifyFields ((k, Json.str v) ::
          kvs.map (fun p => (p.1, Json.str p.2))) ++ '\x7d' :: []) from rfl]
  rw [jsonVal_objFields]
  rw [show (Json.stringifyFields ((k, Json.str v) ::
        kvs.map (fun p => (p.1, Json.str p.2)))).length + 2
      = ((Json.stringifyFields ((k, Json.str v) ::
          kvs.map (fun p => (p.1, Json.str p.2)))).length + 1) + 1 from rfl]
  rw [jsonPairs_strFields kvs k v []
    ((Json.stringifyFields ((k, Json.str v) ::
      kvs.map (fun p => (p.1, Json.str p.2)))).length + 1)
    hbound]
  rfl

/-- The payload written at issuance parses back to the order's canonical
JSON object: the signed bytes round-trip through `safeJsonParse`. -/
theorem safeJsonParse_orderPayload (o : Order) :
    safeJsonParse (orderPayload o) = some (orderCoreJson o) :=
  safeJsonParse_strObj "id" o.id
    [("name", o.name), ("email", o.email), ("ticketType", o.ticketType),
     ("createdAt", o.createdAt), ("status", o.status)]

/-! ## Handler effect lemmas -/

theorem verify_snd (hmacHex : String → String) (req : VScanReq) (kv : KV) :
    (verify hmacHex req kv).2 = kv := by
  unfold verify
  repeat first | rfl | split

theorem redeemStep_seq (id : String) (iso : String) (ms : Nat) (kv : KV) :
    redeemStep id iso ms (redeemStep id iso ms .start kv).1 (redeemStep id iso ms .start kv).2
      = (.done (scanCore id iso ms kv).1, (scanCore id iso ms kv).2) := by
  show redeemStep id iso ms (.gotOrder (getOrder kv id)) kv = _
  cases hg : getOrder kv id with
  | none => simp [redeemStep, scanCore, hg]
  | some order =>
    by_cases hu : order.status == "used" <;> simp [redeemStep, scanCore, hg, hu]

theorem scanCore_orders_cases (id iso : String) (ms : Nat) (kv : KV) :
    (scanCore id iso ms kv).2.orders = kv.orders ∨
    ∃ order : Order, getOrder kv id = some order ∧ order.status ≠ "used" ∧
      (scanCore id iso ms kv).2.orders
        = alSet kv.orders ("order:" ++ order.id)
            { order with status := "used", usedAt := some iso } := by
  unfold scanCore
  split
  · exact Or.inl rfl
  · rename_i order heq
    split
    · exact Or.inl rfl
    · rename_i hu
      exact Or.inr ⟨order, heq, by simpa using hu, rfl⟩

theorem scan_orders_cases (hmacHex : String → String) (iso : String) (ms : Nat)
    (req : VScanReq) (kv : KV) :
    (scan hmacHex iso ms req kv).2.orders = kv.orders ∨
    ∃ order : Order, (∃ id, getOrder kv id = some order) ∧ order.status ≠ "used" ∧
      (scan hmacHex iso ms req kv).2.orders
        = alSet kv.orders ("order:" ++ order.id)
            { order with status := "used", usedAt := some iso } := by
  unfold scan
  split
  · exact Or.inl rfl
  · split
    · exact Or.inl rfl
    · split
      · exact Or.inl rfl
      · rename_i data heqp
        split
        · exact Or.inl rfl
        · rcases scanCore_orders_cases (jsToString ((jget data "id").getD .null)) iso ms kv
            with h | ⟨order, hg, hs, he⟩
          · exact Or.inl h
          · exact Or.inr ⟨order, ⟨_, hg⟩, hs, he⟩

theorem checkout_orders_cases (ctx : Ctx) (req : CheckoutReq) (kv : KV) :
    (checkout ctx req kv).2.orders = kv.orders ∨
    ∃ stored : Order,
      (checkout ctx req kv).2.orders = alSet kv.orders ("order:" ++ ctx.uuid) stored ∧
      stored.status = "issued" ∧ stored.usedAt = none ∧
      stored.ticketType ∈ ALLOWED_TICKET_TYPES := by
  unfold checkout
  split
  · exact Or.inl rfl
  · split
    · exact Or.inl rfl
    · split
      · exact Or.inl rfl
      · rename_i h3
        split
        · exact Or.inl rfl
        · exact Or.inr ⟨_, by cases hik : idemKeyVal req <;> rfl, by rfl, by rfl,
            by simpa using (show ALLOWED_TICKET_TYPES.contains
              (normTicketType req.ticketType) = true from by simpa using h3)⟩

/-! ## The data-model invariants over reachable states -/

theorem mem_orders_of_getOrder {kv : KV} {id : String} {order : Order}
    (hg : getOrder kv id = some order) : ("order:" ++ id, order) ∈ kv.orders := by
  unfold getOrder alGet at hg
  obtain ⟨q, hq1, hq2⟩ := Option.map_eq_some'.mp hg
  have hkey : q.1 = "order:" ++ id := by simpa using List.find?_some hq1
  have hqmem := List.mem_of_find?_eq_some hq1
  have hq : q = ("order:" ++ id, order) := by
    obtain ⟨qk, qv⟩ := q
    simp_all
  rw [← hq]
  exact hqmem

theorem reachable_invariants : ∀ {kv : KV}, Reachable kv →
    UsedAtIffUsed kv ∧ TicketTypesAllowed kv := by
  intro kv h
  induction h with
  | init =>
    constructor <;> intro p hp <;> simp at hp
  | checkoutStep ctx req hprev ih =>
    obtain ⟨ih1, ih2⟩ := ih
    rcases checkout_orders_cases ctx req _ with he | ⟨stored, he, hst, hus, htt⟩
    · constructor <;> intro p hp <;> rw [he] at hp
      · exact ih1 p hp
      · exact ih2 p hp
    · constructor <;> intro p hp <;> rw [he] at hp <;>
        rcases mem_alSet hp with h1 | h1
      · rw [h1]
        simp [hst, hus, show ("issued" : String) ≠ "used" from by decide]
      · exact ih1 p h1
      · rw [h1]
        exact htt
      · exact ih2 p h1
  | verifyStep hm req hprev ih =>
    obtain ⟨ih1, ih2⟩ := ih
    rw [verify_snd]
    exact ⟨ih1, ih2⟩
  | scanStep hm iso ms req hprev ih =>
    obtain ⟨ih1, ih2⟩ := ih
    rcases scan_orders_cases hm iso ms req _ with he | ⟨order, ⟨id0, hg⟩, hs, he⟩
    · constructor <;> intro p hp <;> rw [he] at hp
      · exact ih1 p hp
      · exact ih2 p hp
    · have hmem := mem_orders_of_getOrder hg
      constructor <;> intro p hp <;> rw [he] at hp <;>
        rcases mem_alSet hp with h1 | h1
      · rw [h1]
        simp
      · exact ih1 p h1
      · rw [h1]
        exact ih2 ("order:" ++ id0, order) hmem
      · exact ih2 p h1
  | idemExpire k hprev ih =>
    obtain ⟨ih1, ih2⟩ := ih
    exact ⟨fun p hp => ih1 p hp, fun p hp => ih2 p hp⟩

/-! ## Request-normalization and signature lemmas -/

theorem verifySig_self (hmacHex : String → String) (p : String) :
    verifySig hmacHex p (hmacHex p) = true := by
  unfold verifySig timingSafeEqual
  simp

theorem orderPayload_ne_empty (o : Order) : orderPayload o ≠ "" := by
  intro h
  have hdata : (orderCoreJson o).stringifyL = [] := congrArg String.data h
  have hcons : (orderCoreJson o).stringifyL
      = '\x7b' :: (Json.stringifyFields
          [("id", Json.str o.id), ("name", Json.str o.name), ("email", Json.str o.email),
           ("ticketType", Json.str o.ticketType), ("createdAt", Json.str o.createdAt),
           ("status", Json.str o.status)] ++ ['\x7d']) := rfl
  rw [hcons] at hdata
  exact absurd hdata (by simp)

theorem jget_orderCoreJson_id (o : Order) :
    jget (orderCoreJson o) "id" = some (.str o.id) := rfl

theorem normalizeQr_top (p s : String) (q : Option QrRaw) (hp : p ≠ "") (hs : s ≠ "") :
    normalizeQr { payload := some p, sig := some s, qrData := q }
      = some (.str p, .str s) := by
  unfold normalizeQr
  simp [optTruthy, jsTruthy, hp, hs]

theorem scan_via_payload (hmacHex : String → String) (iso : String) (ms : Nat)
    (kv : KV) (o : Order) (hid : o.id ≠ "")
    (hsig : hmacHex (orderPayload o) ≠ "") :
    scan hmacHex iso ms
        { payload := some (orderPayload o), sig := some (hmacHex (orderPayload o)),
          qrData := none } kv
      = scanCore o.id iso ms kv := by
  unfold scan
  rw [normalizeQr_top _ _ _ (orderPayload_ne_empty o) hsig]
  simp only [jsToString, verifySig_self, Bool.not_true, Bool.false_eq_true, if_false,
    safeJsonParse_orderPayload, jget_orderCoreJson_id, optTruthy, jsTruthy,
    show (o.id != "") = true from by simpa using hid, Option.getD]

theorem verify_via_payload (hmacHex : String → String) (kv : KV) (o : Order)
    (hid : o.id ≠ "") (hsig : hmacHex (orderPayload o) ≠ "") :
    verify hmacHex
        { payload := some (orderPayload o), sig := some (hmacHex (orderPayload o)),
          qrData := none } kv
      = (match getOrder kv o.id with
         | none => (.notFound, kv)
         | some fromDb =>
           (.ok (orderCoreJson o) fromDb.status (usedAtOrNull fromDb.usedAt), kv)) := by
  unfold verify
  rw [normalizeQr_top _ _ _ (orderPayload_ne_empty o) hsig]
  simp only [jsToString, verifySig_self, Bool.not_true, Bool.false_eq_true, if_false,
    safeJsonParse_orderPayload, jget_orderCoreJson_id, optTruthy, jsTruthy,
    show (o.id != "") = true from by simpa using hid, Option.getD]

/-! # Claim theorems -/

/-- C1: the claim says that under N concurrent redemption attempts on one
ticket exactly one succeeds, because the status transition is an atomic
compare-and-set.  The scan handler instead performs a read-modify-write
(`getOrder`, a status check, then an unconditional `kv.set`), and under the
interleaving read-read-write-write of two concurrent scan attempts on the
same issued ticket BOTH attempts answer 200 with an `ok` response — the
double redemption the specification's design notes call out.  The last
conjunct shows the same two attempts run back-to-back (each attempt atomic)
produce exactly one success, isolating the interleaving as the cause. -/
theorem claim_C1_race_both_succeed :
    (runRace "X" "T1" "T2" 1 2 [true, false, true, false]
        (.start, .start,
          { orders := [("order:X",
              { id := "X", name := "N N", email := "a@b.c", ticketType := "VIP",
                createdAt := "T0", status := "issued", usedAt := none, qr := "" })],
            ids := ["X"], byTime := [("X", 0)], usedByTime := [], idem := [] })).1
      = .done (.ok { id := "X", name := "N N", email := "a@b.c", ticketType := "VIP",
                     createdAt := "T0", status := "used", usedAt := some "T1", qr := "" }) ∧
    (runRace "X" "T1" "T2" 1 2 [true, false, true, false]
        (.start, .start,
          { orders := [("order:X",
              { id := "X", name := "N N", email := "a@b.c", ticketType := "VIP",
                createdAt := "T0", status := "issued", usedAt := none, qr := "" })],
            ids := ["X"], byTime := [("X", 0)], usedByTime := [], idem := [] })).2.1
      = .done (.ok { id := "X", name := "N N", email := "a@b.c", ticketType := "VIP",
                     createdAt := "T0", status := "used", usedAt := some "T2", qr := "" }) ∧
    ScanResp.httpCode (.ok { id := "X", name := "N N", email := "a@b.c",
                             ticketType := "VIP", createdAt := "T0", status := "used",
                             usedAt := some "T1", qr := "" }) = 200 ∧
    (runRace "X" "T1" "T2" 1 2 [true, true, false, false]
        (.start, .start,
          { orders := [("order:X",
              { id := "X", name := "N N", email := "a@b.c", ticketType := "VIP",
                createdAt := "T0", status := "issued", usedAt := none, qr := "" })],
            ids := ["X"], byTime := [("X", 0)], usedByTime := [], idem := [] })).2.1
      = .done (.alreadyUsed (some "T1")) :=
  ⟨rfl, rfl, rfl, rfl⟩

/-- C2: on an issued order, the first scan of its signed payload succeeds and
sets `status = "used"` with the scan's timestamp, writing the updated record
and the used-index; every subsequent scan of the same payload answers the 409
`already-used` response carrying the `usedAt` of the first redemption and
leaves the store exactly as the first scan left it. -/
theorem claim_C2_redeem_once (hmacHex : String → String) (kv : KV) (o : Order)
    (iso1 : String) (ms1 : Nat)
    (hord : getOrder kv o.id = some o)
    (hstat : o.status = "issued")
    (hid : o.id ≠ "")
    (hsig : hmacHex (orderPayload o) ≠ "") :
    scan hmacHex iso1 ms1
        { payload := some (orderPayload o), sig := some (hmacHex (orderPayload o)),
          qrData := none } kv
      = (.ok { o with status := "used", usedAt := some iso1 },
         { kv with
           orders := alSet kv.orders ("order:" ++ o.id)
             { o with status := "used", usedAt := some iso1 },
           usedByTime := alSet kv.usedByTime o.id ms1 }) ∧
    (∀ iso2 ms2,
      scan hmacHex iso2 ms2
          { payload := some (orderPayload o), sig := some (hmacHex (orderPayload o)),
            qrData := none }
          { kv with
            orders := alSet kv.orders ("order:" ++ o.id)
              { o with status := "used", usedAt := some iso1 },
            usedByTime := alSet kv.usedByTime o.id ms1 }
        = (.alreadyUsed (some iso1),
           { kv with
             orders := alSet kv.orders ("order:" ++ o.id)
               { o with status := "used", usedAt := some iso1 },
             usedByTime := alSet kv.usedByTime o.id ms1 })) ∧
    ScanResp.httpCode (.alreadyUsed (some iso1)) = 409 ∧
    ScanResp.errorField (.alreadyUsed (some iso1)) = some "already-used" := by
  have hcore1 : scanCore o.id iso1 ms1 kv
      = (.ok { o with status := "used", usedAt := some iso1 },
         { kv with
           orders := alSet kv.orders ("order:" ++ o.id)
             { o with status := "used", usedAt := some iso1 },
           usedByTime := alSet kv.usedByTime o.id ms1 }) := by
    unfold scanCore
    rw [hord]
    split
    · rename_i heq
      exact absurd heq (by simp)
    · rename_i order heq
      injection heq with ho
      subst ho
      split
      · rename_i hu
        rw [hstat] at hu
        exact absurd hu (by decide)
      · rfl
  refine ⟨?_, ?_, rfl, rfl⟩
  · rw [scan_via_payload hmacHex iso1 ms1 kv o hid hsig, hcore1]
  · intro iso2 ms2
    rw [scan_via_payload hmacHex iso2 ms2 _ o hid hsig]
    unfold scanCore
    rw [show getOrder
          { kv with
            orders := alSet kv.orders ("order:" ++ o.id)
              { o with status := "used", usedAt := some iso1 },
            usedByTime := alSet kv.usedByTime o.id ms1 } o.id
        = some { o with status := "used", usedAt := some iso1 }
      from alGet_alSet_self kv.orders ("order:" ++ o.id) _]
    split
    · rename_i heq
      exact absurd heq (by simp)
    · rename_i order heq
      injection heq with ho
      subst ho
      split
      · rfl
      · rename_i hu
        exact absurd rfl hu

/-- Witness for C2 at a concrete store: one issued order, a digest function
returning a nonempty tag, first scan at time `T1`. -/
theorem claim_C2_redeem_once_witness :
    scan (fun s => String.append "h" s) "T1" 1
        { payload := some (orderPayload
            { id := "X", name := "N N", email := "a@b.c", ticketType := "VIP",
              createdAt := "T0", status := "issued", usedAt := none, qr := "" }),
          sig := some ((fun s => String.append "h" s) (orderPayload
            { id := "X", name := "N N", email := "a@b.c", ticketType := "VIP",
              createdAt := "T0", status := "issued", usedAt := none, qr := "" })),
          qrData := none }
        { orders := [("order:X",
            { id := "X", name := "N N", email := "a@b.c", ticketType := "VIP",
              createdAt := "T0", status := "issued", usedAt := none, qr := "" })],
          ids := ["X"], byTime := [("X", 0)], usedByTime := [], idem := [] }
      = (.ok { id := "X", name := "N N", email := "a@b.c", ticketType := "VIP",
               createdAt := "T0", status := "used", usedAt := some "T1", qr := "" },
         { orders := [("order:X",
             { id := "X", name := "N N", email := "a@b.c", ticketType := "VIP",
               createdAt := "T0", status := "used", usedAt := some "T1", qr := "" })],
           ids := ["X"], byTime := [("X", 0)], usedByTime := [("X", 1)], idem := [] }) :=
  (claim_C2_redeem_once (fun s => String.append "h" s)
      { orders := [("order:X",
          { id := "X", name := "N N", email := "a@b.c", ticketType := "VIP",
            createdAt := "T0", status := "issued", usedAt := none, qr := "" })],
        ids := ["X"], byTime := [("X", 0)], usedByTime := [], idem := [] }
      { id := "X", name := "N N", email := "a@b.c", ticketType := "VIP",
        createdAt := "T0", status := "issued", usedAt := none, qr := "" }
      "T1" 1 (by rfl) rfl (by decide) (by decide)).1

/-- The created branch of checkout, in full: the 201 response with the fresh
id and the stored record, all three writes of `saveOrder`, and the
idempotency binding when a key is present. -/
theorem checkout_created (ctx : Ctx) (req : CheckoutReq) (kv : KV)
    (hname : nameInvalid req.name = false)
    (hemail : isEmail req.email = true)
    (htt : ALLOWED_TICKET_TYPES.contains (normTicketType req.ticketType) = true)
    (hrep : checkoutReplay req kv = none) :
    checkout ctx req kv
      = (.created ctx.uuid (checkoutStored ctx req).qr (checkoutStored ctx req),
         { kv with
           orders := alSet kv.orders ("order:" ++ ctx.uuid) (checkoutStored ctx req),
           ids := sAdd kv.ids ctx.uuid,
           byTime := alSet kv.byTime ctx.uuid ctx.nowMs,
           idem := match idemKeyVal req with
             | some k => alSet kv.idem ("idem:" ++ k) ctx.uuid
             | none => kv.idem }) := by
  unfold checkout
  rw [if_neg (by rw [hname]; decide), if_neg (by rw [hemail]; decide),
    if_neg (by rw [htt]; decide), hrep]
  cases hik : idemKeyVal req <;> rfl

/-- C3: on a valid issuance input (name, email and ticketType pass
validation, no idempotent replay), checkout answers 201 with a fresh order
whose payload/signature pair verifies (`Verify(Sign(payload))` succeeds);
calling the verify endpoint with that pair immediately afterwards reports
`status = "issued"` with no `usedAt`; and signing is deterministic — equal
payload bytes yield equal signatures under the same key. -/
theorem claim_C3_sign_verify_roundtrip (ctx : Ctx) (req : CheckoutReq) (kv : KV)
    (hname : nameInvalid req.name = false)
    (hemail : isEmail req.email = true)
    (htt : ALLOWED_TICKET_TYPES.contains (normTicketType req.ticketType) = true)
    (hreplay : checkoutReplay req kv = none)
    (huuid : ctx.uuid ≠ "")
    (hsig : ctx.hmacHex (orderPayload (checkoutStored ctx req)) ≠ "") :
    (checkout ctx req kv).1
      = .created ctx.uuid (checkoutStored ctx req).qr (checkoutStored ctx req) ∧
    (checkoutStored ctx req).id = ctx.uuid ∧
    (checkoutStored ctx req).status = "issued" ∧
    (checkoutStored ctx req).usedAt = none ∧
    verifySig ctx.hmacHex (orderPayload (checkoutStored ctx req))
        (ctx.hmacHex (orderPayload (checkoutStored ctx req))) = true ∧
    verify ctx.hmacHex
        { payload := some (orderPayload (checkoutStored ctx req)),
          sig := some (ctx.hmacHex (orderPayload (checkoutStored ctx req))),
          qrData := none }
        (checkout ctx req kv).2
      = (.ok (orderCoreJson (checkoutStored ctx req)) "issued" none,
         (checkout ctx req kv).2) ∧
    (∀ o1 o2 : Order, orderPayload o1 = orderPayload o2 →
      (sign ctx.hmacHex (orderCoreJson o1)).2 = (sign ctx.hmacHex (orderCoreJson o2)).2) := by
  have hfull := checkout_created ctx req kv hname hemail htt hreplay
  refine ⟨by rw [hfull], rfl, rfl, rfl, verifySig_self _ _, ?_, ?_⟩
  · have hid' : (checkoutStored ctx req).id ≠ "" := huuid
    rw [verify_via_payload ctx.hmacHex _ (checkoutStored ctx req) hid' hsig]
    have hget : getOrder (checkout ctx req kv).2 (checkoutStored ctx req).id
        = some (checkoutStored ctx req) := by
      rw [hfull]
      exact alGet_alSet_self kv.orders ("order:" ++ ctx.uuid) (checkoutStored ctx req)
    rw [hget]
    rfl
  · intro o1 o2 hpay
    show ctx.hmacHex (orderPayload o1) = ctx.hmacHex (orderPayload o2)
    rw [hpay]

/-- C4: in every store state reachable through the public operations,
`usedAt` is present on a stored order exactly when its `status` is `used`:
checkout creates records with `status = "issued"` and no `usedAt`, and the
only mutation (the scan transition) sets `status = "used"` and `usedAt`
together. -/
theorem claim_C4_usedAt_iff_used (kv : KV) (h : Reachable kv) : UsedAtIffUsed kv :=
  (reachable_invariants h).1

/-- The replay branch of checkout: with valid inputs and a replay hit, the
handler echoes the existing order and writes nothing. -/
theorem checkout_replayed (ctx : Ctx) (req : CheckoutReq) (kv : KV) (ord : Order)
    (hname : nameInvalid req.name = false)
    (hemail : isEmail req.email = true)
    (htt : ALLOWED_TICKET_TYPES.contains (normTicketType req.ticketType) = true)
    (hrep : checkoutReplay req kv = some ord) :
    checkout ctx req kv = (.replay ord.id ord.qr ord, kv) := by
  unfold checkout
  rw [if_neg (by rw [hname]; decide), if_neg (by rw [hemail]; decide),
    if_neg (by rw [htt]; decide), hrep]

/-- C5: when the idempotency key resolves to a prior order that is still in
the store, checkout returns that order unchanged as the 200 replay response,
writes nothing, and ignores the request context entirely (so no new id,
signature or rendering is produced); when the key is not yet bound, the
first call creates the order and binds the key, and a second call with the
same key returns the same order id as a replay without modifying the store. -/
theorem claim_C5_idempotency (ctx : Ctx) (req : CheckoutReq) (kv : KV)
    (hname : nameInvalid req.name = false)
    (hemail : isEmail req.email = true)
    (htt : ALLOWED_TICKET_TYPES.contains (normTicketType req.ticketType) = true) :
    (∀ k oid ord,
      idemKeyVal req = some k →
      alGet kv.idem ("idem:" ++ k) = some oid →
      oid ≠ "" →
      getOrder kv oid = some ord →
      checkout ctx req kv = (.replay ord.id ord.qr ord, kv) ∧
      (∀ ctx2 : Ctx, checkout ctx2 req kv = (.replay ord.id ord.qr ord, kv)) ∧
      CheckoutResp.httpCode (.replay ord.id ord.qr ord) = 200) ∧
    (∀ k,
      idemKeyVal req = some k →
      alGet kv.idem ("idem:" ++ k) = none →
      ctx.uuid ≠ "" →
      (checkout ctx req kv).1
        = .created ctx.uuid (checkoutStored ctx req).qr (checkoutStored ctx req) ∧
      (checkoutStored ctx req).id = ctx.uuid ∧
      (∀ ctx2 : Ctx,
        checkout ctx2 req (checkout ctx req kv).2
          = (.replay ctx.uuid (checkoutStored ctx req).qr (checkoutStored ctx req),
             (checkout ctx req kv).2))) := by
  constructor
  · intro k oid ord hik hbind hoid hord
    have hrep : checkoutReplay req kv = some ord := by
      unfold checkoutReplay
      rw [hik]
      show (match alGet kv.idem ("idem:" ++ k) with
            | some existingId =>
              if existingId == "" then none else getOrder kv existingId
            | none => none) = some ord
      rw [hbind]
      show (if (oid == "") = true then none else getOrder kv oid) = some ord
      rw [show (oid == "") = false from by simpa using hoid]
      show getOrder kv oid = some ord
      exact hord
    exact ⟨checkout_replayed ctx req kv ord hname hemail htt hrep,
      fun ctx2 => checkout_replayed ctx2 req kv ord hname hemail htt hrep, rfl⟩
  · intro k hik hbind huuid
    have hrep : checkoutReplay req kv = none := by
      unfold checkoutReplay
      rw [hik]
      show (match alGet kv.idem ("idem:" ++ k) with
            | some existingId =>
              if existingId == "" then none else getOrder kv existingId
            | none => none) = none
      rw [hbind]
    have hfull := checkout_created ctx req kv hname hemail htt hrep
    refine ⟨by rw [hfull], rfl, ?_⟩
    intro ctx2
    have hidem : alGet (checkout ctx req kv).2.idem ("idem:" ++ k) = some ctx.uuid := by
      rw [hfull]
      show alGet (match idemKeyVal req with
            | some k' => alSet kv.idem ("idem:" ++ k') ctx.uuid
            | none => kv.idem) ("idem:" ++ k) = some ctx.uuid
      rw [hik]
      exact alGet_alSet_self kv.idem ("idem:" ++ k) ctx.uuid
    have hrep2 : checkoutReplay req (checkout ctx req kv).2
        = some (checkoutStored ctx req) := by
      unfold checkoutReplay
      rw [hik]
      show (match alGet (checkout ctx req kv).2.idem ("idem:" ++ k) with
            | some existingId =>
              if existingId == "" then none
              else getOrder (checkout ctx req kv).2 existingId
            | none => none) = some (checkoutStored ctx req)
      rw [hidem]
      show (if (ctx.uuid == "") = true then none
            else getOrder (checkout ctx req kv).2 ctx.uuid)
          = some (checkoutStored ctx req)
      rw [show (ctx.uuid == "") = false from by simpa using huuid]
      show getOrder (checkout ctx req kv).2 ctx.uuid = some (checkoutStored ctx req)
      rw [hfull]
      exact alGet_alSet_self kv.orders ("order:" ++ ctx.uuid) (checkoutStored ctx req)
    exact checkout_replayed ctx2 req _ (checkoutStored ctx req) hname hemail htt hrep2

/-- C6: a `ticketType` whose uppercase form lies outside the fixed
enumeration is rejected with the validation error and nothing is persisted
(stated for ASCII inputs, where the `toUpperCase` model is exact); a valid
value is stored in its normalized uppercase form (e.g. `"vip"` becomes
`"VIP"`); and in every reachable store state every persisted `ticketType`
belongs to the enumeration. -/
theorem claim_C6_ticket_type_enum :
    (∀ (ctx : Ctx) (req : CheckoutReq) (kv : KV),
      nameInvalid req.name = false →
      isEmail req.email = true →
      (req.ticketType.getD "").data.all (fun c => c.toNat < 128) = true →
      ALLOWED_TICKET_TYPES.contains (normTicketType req.ticketType) = false →
      checkout ctx req kv = (.invalidTicketType, kv) ∧
      CheckoutResp.httpCode .invalidTicketType = 400) ∧
    (∀ (ctx : Ctx) (req : CheckoutReq) (kv : KV),
      nameInvalid req.name = false →
      isEmail req.email = true →
      ALLOWED_TICKET_TYPES.contains (normTicketType req.ticketType) = true →
      checkoutReplay req kv = none →
      (checkout ctx req kv).1
        = .created ctx.uuid (checkoutStored ctx req).qr (checkoutStored ctx req) ∧
      (checkoutStored ctx req).ticketType = normTicketType req.ticketType ∧
      (checkoutStored ctx req).ticketType ∈ ALLOWED_TICKET_TYPES) ∧
    normTicketType (some "vip") = "VIP" ∧
    (∀ kv : KV, Reachable kv → TicketTypesAllowed kv) := by
  refine ⟨?_, ?_, by decide, fun kv h => (reachable_invariants h).2⟩
  · intro ctx req kv hname hemail _ htt
    refine ⟨?_, rfl⟩
    unfold checkout
    rw [if_neg (by rw [hname]; decide), if_neg (by rw [hemail]; decide),
      if_pos (by rw [htt]; decide)]
  · intro ctx req kv hname hemail htt hrep
    refine ⟨by rw [checkout_created ctx req kv hname hemail htt hrep], rfl, ?_⟩
    show normTicketType req.ticketType ∈ ALLOWED_TICKET_TYPES
    simpa using htt

/-- C7: the verify handler never writes to the store — its output state is
the input state for every request — and on the success path it reports the
stored order's current `status` and `usedAt || null` alongside the contents
deserialized from the verified payload. -/
theorem claim_C7_verify_read_only (hmacHex : String → String) (req : VScanReq) (kv : KV) :
    (verify hmacHex req kv).2 = kv ∧
    (∀ pj sj data fromDb,
      normalizeQr req = some (pj, sj) →
      verifySig hmacHex (jsToString pj) (jsToString sj) = true →
      safeJsonParse (jsToString pj) = some data →
      optTruthy (jget data "id") = true →
      getOrder kv (jsToString ((jget data "id").getD .null)) = some fromDb →
      (verify hmacHex req kv).1 = .ok data fromDb.status (usedAtOrNull fromDb.usedAt)) := by
  refine ⟨verify_snd hmacHex req kv, ?_⟩
  intro pj sj data fromDb hn hv hp hid hg
  unfold verify
  rw [hn]
  show (if !verifySig hmacHex (jsToString pj) (jsToString sj) then
          ((VerifyResp.invalidSignature, kv) : VerifyResp × KV)
        else
          match safeJsonParse (jsToString pj) with
          | none => (.invalidPayload, kv)
          | some data' =>
            if !optTruthy (jget data' "id") then (.invalidPayload, kv)
            else
              match getOrder kv (jsToString ((jget data' "id").getD .null)) with
              | none => (.notFound, kv)
              | some fromDb' =>
                (.ok data' fromDb'.status (usedAtOrNull fromDb'.usedAt), kv)).1
      = .ok data fromDb.status (usedAtOrNull fromDb.usedAt)
  rw [hv]
  show (match safeJsonParse (jsToString pj) with
        | none => ((VerifyResp.invalidPayload, kv) : VerifyResp × KV)
        | some data' =>
          if !optTruthy (jget data' "id") then (.invalidPayload, kv)
          else
            match getOrder kv (jsToString ((jget data' "id").getD .null)) with
            | none => (.notFound, kv)
            | some fromDb' =>
              (.ok data' fromDb'.status (usedAtOrNull fromDb'.usedAt), kv)).1
      = .ok data fromDb.status (usedAtOrNull fromDb.usedAt)
  rw [hp]
  show (if !optTruthy (jget data "id") then ((VerifyResp.invalidPayload, kv) : VerifyResp × KV)
        else
          match getOrder kv (jsToString ((jget data "id").getD .null)) with
          | none => (.notFound, kv)
          | some fromDb' =>
            (.ok data fromDb'.status (usedAtOrNull fromDb'.usedAt), kv)).1
      = .ok data fromDb.status (usedAtOrNull fromDb.usedAt)
  rw [hid]
  show (match getOrder kv (jsToString ((jget data "id").getD .null)) with
        | none => ((VerifyResp.notFound, kv) : VerifyResp × KV)
        | some fromDb' =>
          (.ok data fromDb'.status (usedAtOrNull fromDb'.usedAt), kv)).1
      = .ok data fromDb.status (usedAtOrNull fromDb.usedAt)
  rw [hg]

/-- C8: each of the three validation failures of checkout — invalid name
(absent, empty, or trimmed length below 2), structurally invalid email, and
a ticketType that does not normalize into the enumeration (stated for ASCII
`ticketType` inputs, where the `toUpperCase` model is exact) — produces its
field-specific 400 response and leaves the store untouched; the
specification's example `"not-an-email"` fails the email pattern. -/
theorem claim_C8_validation_errors (ctx : Ctx) (req : CheckoutReq) (kv : KV) :
    (nameInvalid req.name = true → checkout ctx req kv = (.invalidName, kv)) ∧
    (nameInvalid req.name = false → isEmail req.email = false →
      checkout ctx req kv = (.invalidEmail, kv)) ∧
    (nameInvalid req.name = false → isEmail req.email = true →
      (req.ticketType.getD "").data.all (fun c => c.toNat < 128) = true →
      ALLOWED_TICKET_TYPES.contains (normTicketType req.ticketType) = false →
      checkout ctx req kv = (.invalidTicketType, kv)) ∧
    CheckoutResp.httpCode .invalidName = 400 ∧
    CheckoutResp.httpCode .invalidEmail = 400 ∧
    CheckoutResp.httpCode .invalidTicketType = 400 ∧
    isEmail (some "not-an-email") = false := by
  refine ⟨?_, ?_, ?_, rfl, rfl, rfl, by decide⟩
  · intro h
    unfold checkout
    rw [if_pos h]
  · intro h1 h2
    unfold checkout
    rw [if_neg (by rw [h1]; decide), if_pos (by rw [h2]; decide)]
  · intro h1 h2 _ h3
    unfold checkout
    rw [if_neg (by rw [h1]; decide), if_neg (by rw [h2]; decide),
      if_pos (by rw [h3]; decide)]

/-- C9: `verifySig` is total over the exception thrown by
`crypto.timingSafeEqual`: when the signature's byte length differs from the
digest's, the comparison throws and the surrounding try/catch yields
`false`; with equal lengths it returns the byte-wise comparison; and the
digest itself always verifies. -/
theorem claim_C9_verifySig_total (hmacHex : String → String) (payload sig : String) :
    ((bufferOf sig).length ≠ (bufferOf (hmacHex payload)).length →
      (∃ msg, timingSafeEqual (bufferOf (hmacHex payload)) (bufferOf sig) = .error msg) ∧
      verifySig hmacHex payload sig = false) ∧
    ((bufferOf sig).length = (bufferOf (hmacHex payload)).length →
      verifySig hmacHex payload sig = (bufferOf (hmacHex payload) == bufferOf sig)) ∧
    verifySig hmacHex payload (hmacHex payload) = true := by
  refine ⟨?_, ?_, verifySig_self hmacHex payload⟩
  · intro h
    constructor
    · refine ⟨"ERR_CRYPTO_TIMING_SAFE_EQUAL_LENGTH", ?_⟩
      unfold timingSafeEqual
      rw [if_pos (show (bufferOf (hmacHex payload)).length ≠ (bufferOf sig).length
        from fun hh => h hh.symm)]
    · unfold verifySig timingSafeEqual
      show (match (if (bufferOf (hmacHex payload)).length ≠ (bufferOf sig).length then
              (Except.error "ERR_CRYPTO_TIMING_SAFE_EQUAL_LENGTH" : Except String Bool)
            else Except.ok (bufferOf (hmacHex payload) == bufferOf sig)) with
        | Except.ok r => r
        | Except.error _ => false) = false
      rw [if_pos (show (bufferOf (hmacHex payload)).length ≠ (bufferOf sig).length
        from fun hh => h hh.symm)]
  · intro h
    unfold verifySig timingSafeEqual
    show (match (if (bufferOf (hmacHex payload)).length ≠ (bufferOf sig).length then
            (Except.error "ERR_CRYPTO_TIMING_SAFE_EQUAL_LENGTH" : Except String Bool)
          else Except.ok (bufferOf (hmacHex payload) == bufferOf sig)) with
      | Except.ok r => r
      | Except.error _ => false) = (bufferOf (hmacHex payload) == bufferOf sig)
    rw [if_neg (show ¬ (bufferOf (hmacHex payload)).length ≠ (bufferOf sig).length
      from fun hne => hne h.symm)]

/-- Witness for C3: a concrete valid checkout on the empty store. -/
theorem claim_C3_sign_verify_roundtrip_witness :
    (checkout
        { uuid := "u1", nowISO := "T0", nowMs := 5,
          hmacHex := fun s => String.append "h" s, qrRender := fun s => s }
        { name := some "Maria Silva", email := some "maria@example.com",
          ticketType := some "vip", idemKey := none } {}).1
      = .created "u1"
          (checkoutStored
            { uuid := "u1", nowISO := "T0", nowMs := 5,
              hmacHex := fun s => String.append "h" s, qrRender := fun s => s }
            { name := some "Maria Silva", email := some "maria@example.com",
              ticketType := some "vip", idemKey := none }).qr
          (checkoutStored
            { uuid := "u1", nowISO := "T0", nowMs := 5,
              hmacHex := fun s => String.append "h" s, qrRender := fun s => s }
            { name := some "Maria Silva", email := some "maria@example.com",
              ticketType := some "vip", idemKey := none }) :=
  (claim_C3_sign_verify_roundtrip
    { uuid := "u1", nowISO := "T0", nowMs := 5,
      hmacHex := fun s => String.append "h" s, qrRender := fun s => s }
    { name := some "Maria Silva", email := some "maria@example.com",
      ticketType := some "vip", idemKey := none } {}
    (by decide) (by decide) (by decide) rfl (by decide) (by decide)).1

/-- Witness for C4: the invariant at the store reached by one checkout. -/
theorem claim_C4_usedAt_iff_used_witness :
    UsedAtIffUsed (checkout
      { uuid := "u1", nowISO := "T0", nowMs := 5,
        hmacHex := fun s => String.append "h" s, qrRender := fun s => s }
      { name := some "Maria Silva", email := some "maria@example.com",
        ticketType := some "vip", idemKey := none } {}).2 :=
  claim_C4_usedAt_iff_used _
    (Reachable.checkoutStep
      { uuid := "u1", nowISO := "T0", nowMs := 5,
        hmacHex := fun s => String.append "h" s, qrRender := fun s => s }
      { name := some "Maria Silva", email := some "maria@example.com",
        ticketType := some "vip", idemKey := none }
      Reachable.init)

/-- Witness for C5: a replay hit on a store holding a bound key and its
order returns the stored order and writes nothing. -/
theorem claim_C5_idempotency_witness :
    checkout
        { uuid := "u1", nowISO := "T0", nowMs := 5,
          hmacHex := fun s => String.append "h" s, qrRender := fun s => s }
        { name := some "Maria Silva", email := some "maria@example.com",
          ticketType := some "vip", idemKey := some "K" }
        { orders := [("order:X",
            { id := "X", name := "Maria Silva", email := "maria@example.com",
              ticketType := "VIP", createdAt := "T", status := "issued",
              usedAt := none, qr := "QR" })],
          ids := ["X"], byTime := [("X", 1)], usedByTime := [],
          idem := [("idem:K", "X")] }
      = (.replay "X" "QR"
          { id := "X", name := "Maria Silva", email := "maria@example.com",
            ticketType := "VIP", createdAt := "T", status := "issued",
            usedAt := none, qr := "QR" },
         { orders := [("order:X",
             { id := "X", name := "Maria Silva", email := "maria@example.com",
               ticketType := "VIP", createdAt := "T", status := "issued",
               usedAt := none, qr := "QR" })],
           ids := ["X"], byTime := [("X", 1)], usedByTime := [],
           idem := [("idem:K", "X")] }) :=
  ((claim_C5_idempotency
      { uuid := "u1", nowISO := "T0", nowMs := 5,
        hmacHex := fun s => String.append "h" s, qrRender := fun s => s }
      { name := some "Maria Silva", email := some "maria@example.com",
        ticketType := some "vip", idemKey := some "K" }
      { orders := [("order:X",
          { id := "X", name := "Maria Silva", email := "maria@example.com",
            ticketType := "VIP", createdAt := "T", status := "issued",
            usedAt := none, qr := "QR" })],
        ids := ["X"], byTime := [("X", 1)], usedByTime := [],
        idem := [("idem:K", "X")] }
      (by decide) (by decide) (by decide)).1 "K" "X"
      { id := "X", name := "Maria Silva", email := "maria@example.com",
        ticketType := "VIP", createdAt := "T", status := "issued",
        usedAt := none, qr := "QR" }
      rfl rfl (by decide) rfl).1

/-- Witness for C6: `ticketType = "gold"` is rejected with the 400
validation response and the store is untouched. -/
theorem claim_C6_ticket_type_enum_witness :
    checkout
        { uuid := "u1", nowISO := "T0", nowMs := 5,
          hmacHex := fun s => String.append "h" s, qrRender := fun s => s }
        { name := some "Maria Silva", email := some "maria@example.com",
          ticketType := some "gold", idemKey := none } {}
      = (.invalidTicketType, {}) :=
  (claim_C6_ticket_type_enum.1
    { uuid := "u1", nowISO := "T0", nowMs := 5,
      hmacHex := fun s => String.append "h" s, qrRender := fun s => s }
    { name := some "Maria Silva", email := some "maria@example.com",
      ticketType := some "gold", idemKey := none } {}
    (by decide) (by decide) (by decide) (by decide)).1

/-- Witness for C7: verify on a stored issued order reports the stored
status and leaves the store unchanged. -/
theorem claim_C7_verify_read_only_witness :
    (verify (fun s => String.append "h" s)
        { payload := some (orderPayload
            { id := "X", name := "N N", email := "a@b.c", ticketType := "VIP",
              createdAt := "T", status := "issued", usedAt := none, qr := "" }),
          sig := some (String.append "h" (orderPayload
            { id := "X", name := "N N", email := "a@b.c", ticketType := "VIP",
              createdAt := "T", status := "issued", usedAt := none, qr := "" })),
          qrData := none }
        { orders := [("order:X",
            { id := "X", name := "N N", email := "a@b.c", ticketType := "VIP",
              createdAt := "T", status := "issued", usedAt := none, qr := "" })],
          ids := [], byTime := [], usedByTime := [], idem := [] }).2
      = { orders := [("order:X",
            { id := "X", name := "N N", email := "a@b.c", ticketType := "VIP",
              createdAt := "T", status := "issued", usedAt := none, qr := "" })],
          ids := [], byTime := [], usedByTime := [], idem := [] } ∧
    (verify (fun s => String.append "h" s)
        { payload := some (orderPayload
            { id := "X", name := "N N", email := "a@b.c", ticketType := "VIP",
              createdAt := "T", status := "issued", usedAt := none, qr := "" }),
          sig := some (String.append "h" (orderPayload
            { id := "X", name := "N N", email := "a@b.c", ticketType := "VIP",
              createdAt := "T", status := "issued", usedAt := none, qr := "" })),
          qrData := none }
        { orders := [("order:X",
            { id := "X", name := "N N", email := "a@b.c", ticketType := "VIP",
              createdAt := "T", status := "issued", usedAt := none, qr := "" })],
          ids := [], byTime := [], usedByTime := [], idem := [] }).1
      = .ok (orderCoreJson
            { id := "X", name := "N N", email := "a@b.c", ticketType := "VIP",
              createdAt := "T", status := "issued", usedAt := none, qr := "" })
          "issued" none := by
  refine ⟨(claim_C7_verify_read_only _ _ _).1, ?_⟩
  exact (claim_C7_verify_read_only (fun s => String.append "h" s)
    { payload := some (orderPayload
        { id := "X", name := "N N", email := "a@b.c", ticketType := "VIP",
          createdAt := "T", status := "issued", usedAt := none, qr := "" }),
      sig := some (String.append "h" (orderPayload
        { id := "X", name := "N N", email := "a@b.c", ticketType := "VIP",
          createdAt := "T", status := "issued", usedAt := none, qr := "" })),
      qrData := none }
    { orders := [("order:X",
        { id := "X", name := "N N", email := "a@b.c", ticketType := "VIP",
          createdAt := "T", status := "issued", usedAt := none, qr := "" })],
      ids := [], byTime := [], usedByTime := [], idem := [] }).2
    (Json.str (orderPayload
      { id := "X", name := "N N", email := "a@b.c", ticketType := "VIP",
        createdAt := "T", status := "issued", usedAt := none, qr := "" }))
    (Json.str (String.append "h" (orderPayload
      { id := "X", name := "N N", email := "a@b.c", ticketType := "VIP",
        createdAt := "T", status := "issued", usedAt := none, qr := "" })))
    (orderCoreJson
      { id := "X", name := "N N", email := "a@b.c", ticketType := "VIP",
        createdAt := "T", status := "issued", usedAt := none, qr := "" })
    { id := "X", name := "N N", email := "a@b.c", ticketType := "VIP",
      createdAt := "T", status := "issued", usedAt := none, qr := "" }
    rfl rfl (safeJsonParse_orderPayload _) rfl rfl

/-- Witness for C8: the specification's example — email `"not-an-email"`
fails validation with the email-specific 400 response, no order created. -/
theorem claim_C8_validation_errors_witness :
    checkout
        { uuid := "u1", nowISO := "T0", nowMs := 5,
          hmacHex := fun s => String.append "h" s, qrRender := fun s => s }
        { name := some "Maria Silva", email := some "not-an-email",
          ticketType := some "vip", idemKey := none } {}
      = (.invalidEmail, {}) :=
  (claim_C8_validation_errors
    { uuid := "u1", nowISO := "T0", nowMs := 5,
      hmacHex := fun s => String.append "h" s, qrRender := fun s => s }
    { name := some "Maria Silva", email := some "not-an-email",
      ticketType := some "vip", idemKey := none } {}).2.1 (by decide) (by decide)

/-- Witness for C9: a one-byte signature against a two-byte digest throws
inside `timingSafeEqual` and `verifySig` returns `false`. -/
theorem claim_C9_verifySig_total_witness :
    verifySig (fun _ => "hh") "p" "x" = false :=
  ((claim_C9_verifySig_total (fun _ => "hh") "p" "x").1 (by decide)).2

end TicketApi
